

import Mathlib

/-!
Verification of the Quit-OS product-database ledger (server.js +
postgresql-product-schema.sql).

The four aggregates of the schema (product_batches, retailer_inventory,
product_movements, consumer_purchases/purchase_items) are embedded as lists
of records inside a `DBState`.  Each Express handler that mutates state
(`POST /api/products/:productId/batches`, `POST /api/inventory/add`,
`POST /api/purchase`) is embedded as a function
`DBState → Except ApiError DBState` whose statements mirror the SQL
statements of the handler in order; a PostgreSQL CHECK / UNIQUE / FK
constraint violation at any statement is an `Except.error`, and the
`BEGIN … COMMIT / ROLLBACK` discipline of the source is reflected by the
caller keeping the original state whenever the handler returns an error
(`applyOp`).  The read-only trace endpoint
(`GET /api/trace/batch/:batchNumber` + the SQL function
`get_batch_history`) is embedded as a pure query.

Machine integers: the columns involved are PostgreSQL INTEGER / DECIMAL;
all arithmetic in the handlers stays far from any overflow boundary and is
embedded as `Int`.  SERIAL columns are embedded via `next_*_id` counters.
Timestamps (`created_at`, `CURRENT_TIMESTAMP`) are embedded as an `Int`
argument `now` supplied to each operation.
-/

/-- Row of the manufacturers table (the columns the handlers read). -/
structure Manufacturer where
  id : Nat
  wp_user_id : Nat
  company_name : String
deriving DecidableEq

/-- Row of the retailers table (the columns the handlers read). -/
structure Retailer where
  id : Nat
  wp_user_id : Nat
  store_name : String
deriving DecidableEq

/-- Row of the products table (the columns the ledger handlers read). -/
structure Product where
  id : Nat
  manufacturer_id : Nat
deriving DecidableEq

/-- Row of the product_batches table. -/
structure Batch where
  id : Nat
  product_id : Nat
  batch_number : String
  manufacture_date : Int
  expiry_date : Int
  quantity_produced : Int
  quantity_available : Int
deriving DecidableEq

/-- Row of the retailer_inventory table. -/
structure InventoryPosition where
  retailer_id : Nat
  product_id : Nat
  batch_id : Nat
  quantity_in_stock : Int
  quantity_reserved : Int
  price : Int
  last_sold : Option Int
deriving DecidableEq

/-- The from/to entity types allowed by the product_movements CHECK. -/
inductive EntityType where
  | manufacturer
  | retailer
  | consumer
deriving DecidableEq

/-- The movement kinds allowed by the product_movements CHECK
(the SQL value for `return_to_source` is the string 'return'). -/
inductive MovementType where
  | manufacture
  | ship_to_retailer
  | sale_to_consumer
  | return_to_source
  | disposal
  | recall
  | transfer
deriving DecidableEq

/-- Row of the append-only product_movements table. -/
structure Movement where
  id : Nat
  movement_type : MovementType
  product_id : Nat
  batch_id : Nat
  from_entity_type : EntityType
  from_entity_id : Nat
  to_entity_type : EntityType
  to_entity_id : Nat
  quantity : Int
  unit_price : Option Int
  created_at : Int
deriving DecidableEq

/-- Row of the consumer_purchases table (the columns the handler writes). -/
structure Purchase where
  id : Nat
  wp_user_id : Option Nat
  retailer_id : Nat
  total_amount : Int
  purchase_date : Int
deriving DecidableEq

/-- Row of the purchase_items table. -/
structure PurchaseItem where
  purchase_id : Nat
  product_id : Nat
  batch_id : Nat
  quantity : Int
  unit_price : Int
  total_price : Int
deriving DecidableEq

/-- The durable relations, in insertion order, plus the SERIAL counters. -/
structure DBState where
  manufacturers : List Manufacturer
  retailers : List Retailer
  products : List Product
  product_batches : List Batch
  retailer_inventory : List InventoryPosition
  product_movements : List Movement
  consumer_purchases : List Purchase
  purchase_items : List PurchaseItem
  next_batch_id : Nat
  next_movement_id : Nat
  next_purchase_id : Nat
deriving DecidableEq

/-- How a handler invocation fails: thrown JS errors and PostgreSQL
constraint violations, all of which trigger ROLLBACK in the source. -/
inductive ApiError where
  | forbidden
  | retailerMissing
  | insufficientQuantity
  | notFound
  | checkViolation
  | internalFault
deriving DecidableEq

deriving instance DecidableEq for Except

/-- The CHECK constraints of a product_batches row
(quantity_produced > 0, quantity_available >= 0, expiry_date > manufacture_date). -/
def batchRowOk (b : Batch) : Prop :=
  0 < b.quantity_produced ∧ 0 ≤ b.quantity_available ∧
    b.manufacture_date < b.expiry_date

instance (b : Batch) : Decidable (batchRowOk b) :=
  inferInstanceAs (Decidable (0 < b.quantity_produced ∧ 0 ≤ b.quantity_available ∧
    b.manufacture_date < b.expiry_date))

/-- The CHECK constraints of a retailer_inventory row
(both quantities >= 0, quantity_reserved <= quantity_in_stock, price > 0). -/
def invRowOk (r : InventoryPosition) : Prop :=
  0 ≤ r.quantity_in_stock ∧ 0 ≤ r.quantity_reserved ∧
    r.quantity_reserved ≤ r.quantity_in_stock ∧ 0 < r.price

instance (r : InventoryPosition) : Decidable (invRowOk r) :=
  inferInstanceAs (Decidable (0 ≤ r.quantity_in_stock ∧ 0 ≤ r.quantity_reserved ∧
    r.quantity_reserved ≤ r.quantity_in_stock ∧ 0 < r.price))

/-- INSERT INTO product_movements: enforces the CHECK quantity > 0 and the
foreign keys to products and product_batches, assigns the SERIAL id, and
appends the row. -/
def insertMovement (s : DBState) (mv : Movement) : Except ApiError DBState :=
  if 0 < mv.quantity ∧ (∃ p ∈ s.products, p.id = mv.product_id)
      ∧ (∃ b ∈ s.product_batches, b.id = mv.batch_id) then
    .ok { s with
      product_movements := s.product_movements ++ [{ mv with id := s.next_movement_id }],
      next_movement_id := s.next_movement_id + 1 }
  else .error .checkViolation

/-- The ownership query of POST /api/products/:productId/batches:
SELECT p.id, p.manufacturer_id FROM products p JOIN manufacturers m
ON p.manufacturer_id = m.id WHERE p.id = $1 AND m.wp_user_id = $2. -/
def findOwnedProduct (s : DBState) (wp_user_id productId : Nat) : Option Product :=
  s.products.find? fun p =>
    p.id == productId &&
      s.manufacturers.any fun m => m.id == p.manufacturer_id && m.wp_user_id == wp_user_id

/-- POST /api/products/:productId/batches (record_manufacture): verifies
ownership, inserts the batch with quantity_available = quantity_produced
(subject to the row CHECKs and the UNIQUE(product_id, batch_number)
constraint), and records a manufacture movement whose source and
destination are both the product's manufacturer. -/
def record_manufacture (s : DBState) (wp_user_id productId : Nat) (bn : String)
    (manufacture_date expiry_date quantity_produced now : Int) :
    Except ApiError (DBState × Nat) :=
  match findOwnedProduct s wp_user_id productId with
  | none => .error .forbidden
  | some p =>
    let b : Batch :=
      { id := s.next_batch_id, product_id := productId, batch_number := bn,
        manufacture_date := manufacture_date, expiry_date := expiry_date,
        quantity_produced := quantity_produced, quantity_available := quantity_produced }
    if batchRowOk b ∧
        ¬ (∃ b' ∈ s.product_batches, b'.product_id = productId ∧ b'.batch_number = bn) then
      let s1 := { s with product_batches := s.product_batches ++ [b],
                         next_batch_id := s.next_batch_id + 1 }
      match insertMovement s1
        { id := 0, movement_type := .manufacture, product_id := productId,
          batch_id := b.id, from_entity_type := .manufacturer,
          from_entity_id := p.manufacturer_id, to_entity_type := .manufacturer,
          to_entity_id := p.manufacturer_id, quantity := quantity_produced,
          unit_price := none, created_at := now } with
      | .error e => .error e
      | .ok s2 => .ok (s2, b.id)
    else .error .checkViolation

/-- The WHERE key of the retailer_inventory statements:
retailer_id = $ AND product_id = $ AND batch_id = $. -/
def keyMatch (rid pid bid : Nat) (r : InventoryPosition) : Bool :=
  r.retailer_id == rid && r.product_id == pid && r.batch_id == bid

/-- The DO UPDATE arm of the ON CONFLICT upsert in POST /api/inventory/add:
adds `q` to quantity_in_stock and overwrites price on every row matching the
(retailer_id, product_id, batch_id) key, re-checking the row CHECKs. -/
def bumpStock (rid pid bid : Nat) (q p : Int) :
    List InventoryPosition → Option (List InventoryPosition)
  | [] => some []
  | r :: rest =>
    if keyMatch rid pid bid r then
      let r' := { r with quantity_in_stock := r.quantity_in_stock + q, price := p }
      if invRowOk r' then (bumpStock rid pid bid q p rest).map (r' :: ·) else none
    else (bumpStock rid pid bid q p rest).map (r :: ·)

/-- INSERT INTO retailer_inventory … ON CONFLICT (retailer_id, product_id,
batch_id) DO UPDATE: insert a fresh row with quantity_in_stock = q, or add
to the existing row's stock and overwrite its price. -/
def upsertInventory (inv : List InventoryPosition) (rid pid bid : Nat) (q p : Int) :
    Option (List InventoryPosition) :=
  if inv.any (keyMatch rid pid bid) then
    bumpStock rid pid bid q p inv
  else
    let r : InventoryPosition :=
      { retailer_id := rid, product_id := pid, batch_id := bid,
        quantity_in_stock := q, quantity_reserved := 0, price := p, last_sold := none }
    if invRowOk r then some (inv ++ [r]) else none

/-- UPDATE product_batches SET quantity_available = quantity_available - q
WHERE id = bid, re-checking the row CHECKs on every updated row. -/
def decBatch (bid : Nat) (q : Int) : List Batch → Option (List Batch)
  | [] => some []
  | b :: rest =>
    if b.id = bid then
      let b' := { b with quantity_available := b.quantity_available - q }
      if batchRowOk b' then (decBatch bid q rest).map (b' :: ·) else none
    else (decBatch bid q rest).map (b :: ·)

/-- POST /api/inventory/add (ship_to_retailer): resolves the retailer,
checks the batch's quantity_available (the source throws the single error
message 'Insufficient batch quantity available' both when no batch matches
and when quantity_available < quantity), upserts the inventory position,
decrements the batch, and records a ship_to_retailer movement.  The whole
handler runs inside one BEGIN … COMMIT; any error rolls everything back
(`applyOp` keeps the original state). -/
def ship_to_retailer (s : DBState) (wp_user_id product_id batch_id : Nat)
    (quantity price now : Int) : Except ApiError DBState :=
  match s.retailers.find? (fun r => r.wp_user_id == wp_user_id) with
  | none => .error .retailerMissing
  | some r =>
    match s.product_batches.find?
        (fun b => b.id == batch_id && b.product_id == product_id) with
    | none => .error .insufficientQuantity
    | some b =>
      if b.quantity_available < quantity then .error .insufficientQuantity
      else
        match upsertInventory s.retailer_inventory r.id product_id batch_id quantity price with
        | none => .error .checkViolation
        | some inv' =>
          match decBatch batch_id quantity s.product_batches with
          | none => .error .checkViolation
          | some bs' =>
            match s.products.find? (fun p => p.id == product_id) with
            | none => .error .internalFault
            | some p =>
              insertMovement { s with retailer_inventory := inv', product_batches := bs' }
                { id := 0, movement_type := .ship_to_retailer, product_id := product_id,
                  batch_id := batch_id, from_entity_type := .manufacturer,
                  from_entity_id := p.manufacturer_id, to_entity_type := .retailer,
                  to_entity_id := r.id, quantity := quantity, unit_price := some price,
                  created_at := now }

/-- One line item of POST /api/purchase. -/
structure LineItem where
  product_id : Nat
  batch_id : Nat
  quantity : Int
  unit_price : Int
deriving DecidableEq

/-- UPDATE retailer_inventory SET quantity_in_stock = quantity_in_stock - q,
last_sold = now WHERE retailer_id = rid AND product_id = pid AND
batch_id = bid.  Rows that do not match the key are left untouched and,
exactly as in SQL, a key with no matching row updates nothing and raises
no error.  Every updated row is re-checked against the row CHECKs. -/
def decStock (rid pid bid : Nat) (q now : Int) :
    List InventoryPosition → Option (List InventoryPosition)
  | [] => some []
  | r :: rest =>
    if keyMatch rid pid bid r then
      let r' := { r with quantity_in_stock := r.quantity_in_stock - q, last_sold := some now }
      if invRowOk r' then (decStock rid pid bid q now rest).map (r' :: ·) else none
    else (decStock rid pid bid q now rest).map (r :: ·)

/-- The per-item body of the loop in POST /api/purchase: insert the
purchase_items row (CHECK quantity > 0 and the foreign keys), run the
inventory UPDATE, and insert the sale_to_consumer movement (destination is
the consumer's wp_user_id, or the sentinel 0 when absent). -/
def purchaseItemStep (s : DBState) (retailer_id : Nat) (wp : Option Nat) (now : Int)
    (purchase_id : Nat) (item : LineItem) : Except ApiError DBState :=
  if 0 < item.quantity ∧ (∃ p ∈ s.products, p.id = item.product_id)
      ∧ (∃ b ∈ s.product_batches, b.id = item.batch_id) then
    let row : PurchaseItem :=
      { purchase_id := purchase_id, product_id := item.product_id,
        batch_id := item.batch_id, quantity := item.quantity,
        unit_price := item.unit_price,
        total_price := item.quantity * item.unit_price }
    let s1 := { s with purchase_items := s.purchase_items ++ [row] }
    match decStock retailer_id item.product_id item.batch_id item.quantity now
        s1.retailer_inventory with
    | none => .error .checkViolation
    | some inv' =>
      insertMovement { s1 with retailer_inventory := inv' }
        { id := 0, movement_type := .sale_to_consumer, product_id := item.product_id,
          batch_id := item.batch_id, from_entity_type := .retailer,
          from_entity_id := retailer_id, to_entity_type := .consumer,
          to_entity_id := wp.getD 0, quantity := item.quantity,
          unit_price := some item.unit_price, created_at := now }
  else .error .checkViolation

/-- The for-loop of POST /api/purchase over the line items. -/
def processItems (retailer_id : Nat) (wp : Option Nat) (now : Int) (purchase_id : Nat) :
    DBState → List LineItem → Except ApiError DBState
  | s, [] => .ok s
  | s, item :: rest =>
    match purchaseItemStep s retailer_id wp now purchase_id item with
    | .error e => .error e
    | .ok s' => processItems retailer_id wp now purchase_id s' rest

/-- The consumer_purchases row the purchase handler inserts:
total_amount is the items.reduce sum of quantity * unit_price over the
caller-supplied line items. -/
def purchaseRow (s : DBState) (rid : Nat) (items : List LineItem) (wp : Option Nat)
    (now : Int) : Purchase :=
  { id := s.next_purchase_id, wp_user_id := wp, retailer_id := rid,
    total_amount := items.foldl (fun sum item => sum + item.quantity * item.unit_price) 0,
    purchase_date := now }

/-- The state after the purchase-row insert, before the item loop. -/
def purchaseInit (s : DBState) (rid : Nat) (items : List LineItem) (wp : Option Nat)
    (now : Int) : DBState :=
  { s with
      consumer_purchases := s.consumer_purchases ++ [purchaseRow s rid items wp now],
      next_purchase_id := s.next_purchase_id + 1 }

/-- POST /api/purchase (sell_to_consumer): computes the total from the
caller-supplied line items, inserts the consumer_purchases row (foreign key
to retailers), then processes every line item inside the same transaction. -/
def sell_to_consumer (s : DBState) (retailer_id : Nat) (items : List LineItem)
    (wp : Option Nat) (now : Int) : Except ApiError (DBState × Nat) :=
  if ∃ r ∈ s.retailers, r.id = retailer_id then
    match processItems retailer_id wp now s.next_purchase_id
        (purchaseInit s retailer_id items wp now) items with
    | .error e => .error e
    | .ok s2 => .ok (s2, s.next_purchase_id)
  else .error .checkViolation

/-- The entity-label CASE of get_batch_history: manufacturer and retailer
names come from LEFT JOINs (so a deleted party yields SQL NULL, embedded as
`none`); anything else falls through to the literal label
('Consumer #' || id). -/
def entityLabel (s : DBState) (t : EntityType) (eid : Nat) : Option String :=
  match t with
  | .manufacturer => (s.manufacturers.find? (fun m => m.id == eid)).map (·.company_name)
  | .retailer => (s.retailers.find? (fun r => r.id == eid)).map (·.store_name)
  | .consumer => some ("Consumer #" ++ toString eid)

/-- One row returned by get_batch_history. -/
structure HistoryRow where
  movement_date : Int
  movement_type : MovementType
  from_entity : Option String
  to_entity : Option String
  quantity : Int
deriving DecidableEq

/-- Insert a movement after every already-placed movement whose created_at
is ≤ its own: the insertion step of a stable sort. -/
def insertMov (m : Movement) : List Movement → List Movement
  | [] => [m]
  | x :: xs => if x.created_at ≤ m.created_at then x :: insertMov m xs else m :: x :: xs

/-- ORDER BY pm.created_at of get_batch_history.  The SQL names no
secondary sort key and guarantees nothing about the relative order of rows
sharing a created_at, so an executable embedding necessarily picks some
concrete order for ties; this one is an insertion sort over the table's
insertion order, and no theorem below relies on the tie order it happens
to induce. -/
def sortMovements (l : List Movement) : List Movement :=
  l.foldl (fun acc m => insertMov m acc) []

/-- Render one movement row as get_batch_history does. -/
def renderRow (s : DBState) (m : Movement) : HistoryRow :=
  { movement_date := m.created_at, movement_type := m.movement_type,
    from_entity := entityLabel s m.from_entity_type m.from_entity_id,
    to_entity := entityLabel s m.to_entity_type m.to_entity_id,
    quantity := m.quantity }

/-- The SQL function get_batch_history(batch_uuid): all movements of the
batch, ordered by created_at, with the party labels joined in. -/
def get_batch_history (s : DBState) (b : Batch) : List HistoryRow :=
  (sortMovements (s.product_movements.filter (fun m => m.batch_id == b.id))).map (renderRow s)

/-- The batch-lookup query of GET /api/trace/batch/:batchNumber: the first
product_batches row with the given batch_number whose product and
manufacturer JOINs succeed. -/
def selectTraceBatch (s : DBState) (bn : String) : Option Batch :=
  s.product_batches.find? fun b =>
    b.batch_number == bn &&
      s.products.any fun p =>
        p.id == b.product_id && s.manufacturers.any fun m => m.id == p.manufacturer_id

/-- GET /api/trace/batch/:batchNumber: 404 when no batch matches, otherwise
the batch plus its rendered movement history.  The handler only runs
SELECTs, so it is a pure query of the state. -/
def trace_batch (s : DBState) (bn : String) : Except ApiError (Batch × List HistoryRow) :=
  match selectTraceBatch s bn with
  | none => .error .notFound
  | some b => .ok (b, get_batch_history s b)

/-- A transfer intent: one invocation of a core endpoint. -/
inductive Op where
  | opManufacture (wp_user_id productId : Nat) (bn : String) (md ed qp now : Int)
  | opShip (wp_user_id product_id batch_id : Nat) (quantity price now : Int)
  | opPurchase (retailer_id : Nat) (items : List LineItem) (wp : Option Nat) (now : Int)
  | opTrace (bn : String)
deriving DecidableEq

/-- Run one endpoint invocation against the store: COMMIT keeps the new
state, ROLLBACK (any error) keeps the old one, and the trace endpoint
never writes. -/
def applyOp (s : DBState) : Op → DBState
  | .opManufacture u pid bn md ed qp now =>
    match record_manufacture s u pid bn md ed qp now with
    | .ok (s', _) => s'
    | .error _ => s
  | .opShip u pid bid q p now =>
    match ship_to_retailer s u pid bid q p now with
    | .ok s' => s'
    | .error _ => s
  | .opPurchase rid items wp now =>
    match sell_to_consumer s rid items wp now with
    | .ok (s', _) => s'
    | .error _ => s
  | .opTrace _ => s

/-- Run a sequence of endpoint invocations. -/
def run (s : DBState) (ops : List Op) : DBState := ops.foldl applyOp s

/-- The signed contribution of one movement to its batch's availability:
manufacture credits, ship_to_retailer debits, sale_to_consumer (which
only moves retailer stock) and every other kind contributes nothing. -/
def signedQty (m : Movement) : Int :=
  match m.movement_type with
  | .manufacture => m.quantity
  | .ship_to_retailer => - m.quantity
  | _ => 0

/-- Replay a movement log for one batch: the sum of signed quantities of
the batch's movements in commit order. -/
def replaySum (moves : List Movement) (bid : Nat) : Int :=
  ((moves.filter (fun m => m.batch_id == bid)).map signedQty).sum

/-- Every stored batch id and every movement's batch reference is below the
SERIAL counter (fresh batch ids are genuinely fresh). -/
def BatchIdsBound (s : DBState) : Prop :=
  (∀ b ∈ s.product_batches, b.id < s.next_batch_id) ∧
    (∀ m ∈ s.product_movements, m.batch_id < s.next_batch_id)

/-- The reconciliation law: every batch's cached quantity_available equals
the replay of its movement log. -/
def Reconciles (s : DBState) : Prop :=
  ∀ b ∈ s.product_batches, b.quantity_available = replaySum s.product_movements b.id

/-- The ledger invariant: fresh ids, key uniqueness of batches, and the
reconciliation law. -/
def LedgerInv (s : DBState) : Prop :=
  BatchIdsBound s ∧ (s.product_batches.map (·.id)).Nodup ∧ Reconciles s

instance (s : DBState) : Decidable (BatchIdsBound s) :=
  inferInstanceAs (Decidable ((∀ b ∈ s.product_batches, b.id < s.next_batch_id) ∧
    (∀ m ∈ s.product_movements, m.batch_id < s.next_batch_id)))

instance (s : DBState) : Decidable (Reconciles s) :=
  inferInstanceAs (Decidable
    (∀ b ∈ s.product_batches, b.quantity_available = replaySum s.product_movements b.id))

instance (s : DBState) : Decidable (LedgerInv s) :=
  inferInstanceAs (Decidable (BatchIdsBound s ∧
    (s.product_batches.map (fun b : Batch => b.id)).Nodup ∧ Reconciles s))

/-- SELECT the (unique, if the UNIQUE constraint holds) retailer_inventory
row of one (retailer, product, batch) key. -/
def findInvRow (inv : List InventoryPosition) (rid pid bid : Nat) :
    Option InventoryPosition :=
  inv.find? (keyMatch rid pid bid)

/-- Forget a batch's mutable column, keeping every write-once column. -/
def clearQA (b : Batch) : Batch := { b with quantity_available := 0 }

/-- Does the operation create a batch?  Only record_manufacture does. -/
def Op.createsBatch : Op → Bool
  | .opManufacture .. => true
  | _ => false

/-- An inventory row after a sale: same key, stock not increased. -/
def shrunkRow (r' r : InventoryPosition) : Prop :=
  r'.retailer_id = r.retailer_id ∧ r'.product_id = r.product_id ∧
    r'.batch_id = r.batch_id ∧ r'.quantity_in_stock ≤ r.quantity_in_stock

/-- Forget an inventory row's stored price. -/
def stripRowPrice (r : InventoryPosition) : InventoryPosition := { r with price := 0 }

/-- Forget every stored inventory price of a state: two states with the
same image differ at most in stored inventory prices. -/
def stripPrices (s : DBState) : DBState :=
  { s with retailer_inventory := s.retailer_inventory.map stripRowPrice }

/-- All stored inventory prices are positive (the price CHECK, which every
state that actually came out of the database satisfies). -/
def PricesPositive (s : DBState) : Prop := ∀ r ∈ s.retailer_inventory, 0 < r.price

/-- Concrete manufacturer used by the witnesses. -/
def mAcme : Manufacturer := ⟨1, 10, "Acme"⟩

/-- Concrete retailer used by the witnesses. -/
def rShop : Retailer := ⟨1, 20, "Shop"⟩

/-- Concrete product used by the witnesses. -/
def pOne : Product := ⟨1, 1⟩

/-- A state with one manufacturer, one retailer, one product, and empty
ledger tables. -/
def baseState : DBState :=
  { manufacturers := [mAcme], retailers := [rShop], products := [pOne],
    product_batches := [], retailer_inventory := [], product_movements := [],
    consumer_purchases := [], purchase_items := [],
    next_batch_id := 1, next_movement_id := 1, next_purchase_id := 1 }

/-- A batch of product 1 with 800 of 1000 units still available. -/
def batchB800 : Batch := ⟨1, 1, "B1", 0, 365, 1000, 800⟩

/-- baseState plus `batchB800` (no inventory rows, no movements). -/
def stateB800 : DBState :=
  { baseState with product_batches := [batchB800], next_batch_id := 2 }

/-- An already-expired batch: expiry_date 10 lies before the times used by
the counterexample calls. -/
def batchExpired : Batch := ⟨1, 1, "B1", 0, 10, 1000, 800⟩

/-- baseState plus the expired `batchExpired`. -/
def stateExpired : DBState :=
  { baseState with product_batches := [batchExpired], next_batch_id := 2 }

/-- A second batch of product 1, needed by the mixed-purchase
counterexample. -/
def batchB2 : Batch := ⟨2, 1, "B2", 0, 365, 500, 500⟩

/-- An inventory position of retailer 1 holding 150 units of batch 1. -/
def invRow150 : InventoryPosition := ⟨1, 1, 1, 150, 0, 5, none⟩

/-- Two batches, but retailer 1 stocks only batch 1: line items against
batch 2 have no inventory position. -/
def stateMixed : DBState :=
  { baseState with
      product_batches := [batchB800, batchB2],
      retailer_inventory := [invRow150],
      next_batch_id := 3 }

/-- A ship_to_retailer movement whose source manufacturer (id 99) is
absent from the manufacturers table. -/
def movOrphan : Movement :=
  ⟨1, .ship_to_retailer, 1, 1, .manufacturer, 99, .retailer, 1, 200, some 5, 200⟩

/-- stateB800 with `movOrphan` in the movement log. -/
def stateOrphan : DBState :=
  { stateB800 with product_movements := [movOrphan], next_movement_id := 2 }

/-- stateMixed with the stored price of the only inventory row changed
from 5 to 9: differs from stateMixed only in a stored price. -/
def stateMixedPricey : DBState :=
  { baseState with
      product_batches := [batchB800, batchB2],
      retailer_inventory := [⟨1, 1, 1, 150, 0, 9, none⟩],
      next_batch_id := 3 }

/-- The operation list of the spec's scenario walk-through: manufacture
1000, ship 200 at price 5, sell 50 at price 7. -/
def scenarioOps : List Op :=
  [.opManufacture 10 1 "B1" 0 365 1000 100,
   .opShip 20 1 1 200 5 200,
   .opPurchase 1 [⟨1, 1, 50, 7⟩] (some 30) 300]

/-! ## Inversion of the ship handler -/

/-- The movement row the ship handler appends. -/
def shipMovement (s : DBState) (pid bid mid rid : Nat) (q price now : Int) : Movement :=
  { id := s.next_movement_id, movement_type := .ship_to_retailer,
    product_id := pid, batch_id := bid, from_entity_type := .manufacturer,
    from_entity_id := mid, to_entity_type := .retailer,
    to_entity_id := rid, quantity := q, unit_price := some price,
    created_at := now }

/-- The state the ship handler commits. -/
def shipResult (s : DBState) (inv' : List InventoryPosition) (bs' : List Batch)
    (mv : Movement) : DBState :=
  { s with
      retailer_inventory := inv',
      product_batches := bs',
      product_movements := s.product_movements ++ [mv],
      next_movement_id := s.next_movement_id + 1 }

/-! ## Inversion of the manufacture handler -/

/-- The product_batches row record_manufacture inserts. -/
def newBatchRow (s : DBState) (productId : Nat) (bn : String) (md ed qp : Int) : Batch :=
  { id := s.next_batch_id, product_id := productId, batch_number := bn,
    manufacture_date := md, expiry_date := ed,
    quantity_produced := qp, quantity_available := qp }

/-- The movement row record_manufacture appends. -/
def manufactureMovement (s : DBState) (productId mid : Nat) (qp now : Int) : Movement :=
  { id := s.next_movement_id, movement_type := .manufacture,
    product_id := productId, batch_id := s.next_batch_id,
    from_entity_type := .manufacturer, from_entity_id := mid,
    to_entity_type := .manufacturer, to_entity_id := mid,
    quantity := qp, unit_price := none, created_at := now }

/-- The state record_manufacture commits. -/
def manufactureResult (s : DBState) (p : Product) (productId : Nat) (bn : String)
    (md ed qp now : Int) : DBState :=
  { s with
      product_batches := s.product_batches ++ [newBatchRow s productId bn md ed qp],
      next_batch_id := s.next_batch_id + 1,
      product_movements := s.product_movements ++
        [manufactureMovement s productId p.manufacturer_id qp now],
      next_movement_id := s.next_movement_id + 1 }

/-- The state after the witness manufacture call. -/
def stateMan1 : DBState := applyOp baseState (.opManufacture 10 1 "B1" 0 365 1000 100)

/-! ## Inversion of the purchase handler -/

/-- The movement row a purchase line item appends. -/
def saleMovement (s : DBState) (retailer_id : Nat) (wp : Option Nat) (now : Int)
    (item : LineItem) : Movement :=
  { id := s.next_movement_id, movement_type := .sale_to_consumer,
    product_id := item.product_id, batch_id := item.batch_id,
    from_entity_type := .retailer, from_entity_id := retailer_id,
    to_entity_type := .consumer, to_entity_id := wp.getD 0,
    quantity := item.quantity, unit_price := some item.unit_price, created_at := now }

/-- The purchase_items row a line item inserts. -/
def purchaseItemRow (pid : Nat) (item : LineItem) : PurchaseItem :=
  { purchase_id := pid, product_id := item.product_id,
    batch_id := item.batch_id, quantity := item.quantity,
    unit_price := item.unit_price, total_price := item.quantity * item.unit_price }

/-- The state one successful line item commits. -/
def purchaseStepResult (s : DBState) (rid : Nat) (wp : Option Nat) (now : Int)
    (pid : Nat) (item : LineItem) (inv' : List InventoryPosition) : DBState :=
  { s with
      purchase_items := s.purchase_items ++ [purchaseItemRow pid item],
      retailer_inventory := inv',
      product_movements := s.product_movements ++ [saleMovement s rid wp now item],
      next_movement_id := s.next_movement_id + 1 }

/-- The state after the witness purchase against stocked inventory. -/
def statePurchased : DBState :=
  applyOp stateMixed (.opPurchase 1 [⟨1, 1, 50, 7⟩] (some 30) 300)

instance (s : DBState) : Decidable (PricesPositive s) :=
  inferInstanceAs (Decidable (∀ r ∈ s.retailer_inventory, 0 < r.price))

/-- The single batch row present after the scenario walk-through. -/
def batchAfterScenario : Batch := ⟨1, 1, "B1", 0, 365, 1000, 800⟩

/-- The first line item of the C3 witness purchase. -/
def item50 : LineItem := ⟨1, 1, 50, 7⟩

/-! ## Lemmas about the row-update helpers -/

lemma decBatch_map_clearQA {bid : Nat} {q : Int} :
    ∀ {l l' : List Batch}, decBatch bid q l = some l' → l'.map clearQA = l.map clearQA := by
  intro l
  induction l with
  | nil =>
    intro l' h
    simp only [decBatch, Option.some.injEq] at h
    simp [← h]
  | cons b rest ih =>
    intro l' h
    simp only [decBatch] at h
    by_cases hb : b.id = bid
    · rw [if_pos hb] at h
      by_cases hok : batchRowOk { b with quantity_available := b.quantity_available - q }
      · rw [if_pos hok] at h
        cases hrec : decBatch bid q rest with
        | none => rw [hrec] at h; simp at h
        | some rest' =>
          rw [hrec] at h
          simp only [Option.map_some', Option.some.injEq] at h
          subst h
          simp only [List.map_cons, ih hrec]
          rfl
      · rw [if_neg hok] at h; simp at h
    · rw [if_neg hb] at h
      cases hrec : decBatch bid q rest with
      | none => rw [hrec] at h; simp at h
      | some rest' =>
        rw [hrec] at h
        simp only [Option.map_some', Option.some.injEq] at h
        subst h
        simp [ih hrec]

lemma decBatch_map_id {bid : Nat} {q : Int} {l l' : List Batch}
    (h : decBatch bid q l = some l') : l'.map (·.id) = l.map (·.id) := by
  have h1 := decBatch_map_clearQA h
  have h2 : ∀ m : List Batch, m.map (·.id) = (m.map clearQA).map (·.id) := by
    intro m
    rw [List.map_map]
    rfl
  rw [h2 l', h2 l, h1]

lemma decBatch_mem {bid : Nat} {q : Int} :
    ∀ {l l' : List Batch}, decBatch bid q l = some l' →
      ∀ b' ∈ l', ∃ b ∈ l, b'.id = b.id ∧
        (b.id = bid → b'.quantity_available = b.quantity_available - q) ∧
        (b.id ≠ bid → b' = b) := by
  intro l
  induction l with
  | nil =>
    intro l' h
    simp only [decBatch, Option.some.injEq] at h
    subst h
    intro b' hb'
    simp at hb'
  | cons b rest ih =>
    intro l' h
    simp only [decBatch] at h
    by_cases hb : b.id = bid
    · rw [if_pos hb] at h
      by_cases hok : batchRowOk { b with quantity_available := b.quantity_available - q }
      · rw [if_pos hok] at h
        cases hrec : decBatch bid q rest with
        | none => rw [hrec] at h; simp at h
        | some rest' =>
          rw [hrec] at h
          simp only [Option.map_some', Option.some.injEq] at h
          subst h
          intro b' hb'
          rcases List.mem_cons.mp hb' with hb' | hb'
          · exact ⟨b, List.mem_cons_self _ _, by simp [hb'], fun _ => by simp [hb'],
              fun hne => absurd hb hne⟩
          · obtain ⟨c, hc, hcid, hcd, hce⟩ := ih hrec b' hb'
            exact ⟨c, List.mem_cons_of_mem _ hc, hcid, hcd, hce⟩
      · rw [if_neg hok] at h; simp at h
    · rw [if_neg hb] at h
      cases hrec : decBatch bid q rest with
      | none => rw [hrec] at h; simp at h
      | some rest' =>
        rw [hrec] at h
        simp only [Option.map_some', Option.some.injEq] at h
        subst h
        intro b' hb'
        rcases List.mem_cons.mp hb' with hb' | hb'
        · exact ⟨b, List.mem_cons_self _ _, by simp [hb'], fun he => absurd he hb,
            fun _ => hb'⟩
        · obtain ⟨c, hc, hcid, hcd, hce⟩ := ih hrec b' hb'
          exact ⟨c, List.mem_cons_of_mem _ hc, hcid, hcd, hce⟩

lemma ship_ok_inversion {s s' : DBState} {u pid bid : Nat} {q price now : Int}
    (h : ship_to_retailer s u pid bid q price now = .ok s') :
    ∃ r b inv' bs' pr,
      s.retailers.find? (fun x => x.wp_user_id == u) = some r ∧
      s.product_batches.find? (fun x => x.id == bid && x.product_id == pid) = some b ∧
      ¬ b.quantity_available < q ∧
      upsertInventory s.retailer_inventory r.id pid bid q price = some inv' ∧
      decBatch bid q s.product_batches = some bs' ∧
      s.products.find? (fun x => x.id == pid) = some pr ∧
      0 < q ∧
      s' = shipResult s inv' bs' (shipMovement s pid bid pr.manufacturer_id r.id q price now) := by
  unfold ship_to_retailer at h
  cases hr : s.retailers.find? (fun x => x.wp_user_id == u) with
  | none => simp only [hr] at h; simp at h
  | some r =>
    simp only [hr] at h
    cases hb : s.product_batches.find? (fun x => x.id == bid && x.product_id == pid) with
    | none => simp only [hb] at h; simp at h
    | some b =>
      simp only [hb] at h
      by_cases hq : b.quantity_available < q
      · rw [if_pos hq] at h; simp at h
      · rw [if_neg hq] at h
        cases hup : upsertInventory s.retailer_inventory r.id pid bid q price with
        | none => simp only [hup] at h; simp at h
        | some inv' =>
          simp only [hup] at h
          cases hdec : decBatch bid q s.product_batches with
          | none => simp only [hdec] at h; simp at h
          | some bs' =>
            simp only [hdec] at h
            cases hp : s.products.find? (fun x => x.id == pid) with
            | none => simp only [hp] at h; simp at h
            | some pr =>
              simp only [hp] at h
              unfold insertMovement at h
              split at h
              · rename_i hcond
                refine ⟨r, b, inv', bs', pr, ?_, ?_, hq, ?_, ?_, ?_, hcond.1, ?_⟩ <;>
                  first
                    | rfl
                    | exact hr
                    | exact hb
                    | exact hup
                    | exact hdec
                    | exact hp
                    | (cases h; rfl)
              · simp at h

/-! ## C1 -/

/-- C1: a ship_to_retailer request (POST /api/inventory/add) whose quantity
exceeds the batch's quantity_available fails with the insufficient-quantity
error, and the transaction leaves the whole stored state (batches,
inventory positions, movement log, purchases) unchanged: the availability
check and the decrement sit in the same atomic unit, so a failed check
means no effect at all. -/
theorem C1_ship_insufficient_no_effect (s : DBState) (u pid bid : Nat)
    (q price now : Int) (r : Retailer)
    (hr : s.retailers.find? (fun x => x.wp_user_id == u) = some r)
    (b : Batch)
    (hb : s.product_batches.find? (fun x => x.id == bid && x.product_id == pid) = some b)
    (hq : b.quantity_available < q) :
    ship_to_retailer s u pid bid q price now = .error .insufficientQuantity ∧
      applyOp s (.opShip u pid bid q price now) = s := by
  have h1 : ship_to_retailer s u pid bid q price now = .error .insufficientQuantity := by
    unfold ship_to_retailer
    simp only [hr, hb]
    rw [if_pos hq]
  refine ⟨h1, ?_⟩
  simp only [applyOp, h1]

/-- Witness for C1: shipping 900 from a batch with 800 available fails and
changes nothing. -/
theorem C1_ship_insufficient_no_effect_witness :
    ship_to_retailer stateB800 20 1 1 900 5 400 = .error .insufficientQuantity ∧
      applyOp stateB800 (.opShip 20 1 1 900 5 400) = stateB800 :=
  C1_ship_insufficient_no_effect stateB800 20 1 1 900 5 400 rShop (by decide)
    batchB800 (by decide) (by decide)

lemma manufacture_ok_inversion {s s' : DBState} {u productId bidOut : Nat} {bn : String}
    {md ed qp now : Int}
    (h : record_manufacture s u productId bn md ed qp now = .ok (s', bidOut)) :
    ∃ p, findOwnedProduct s u productId = some p ∧
      batchRowOk (newBatchRow s productId bn md ed qp) ∧
      ¬ (∃ b' ∈ s.product_batches, b'.product_id = productId ∧ b'.batch_number = bn) ∧
      0 < qp ∧
      bidOut = s.next_batch_id ∧
      s' = manufactureResult s p productId bn md ed qp now := by
  unfold record_manufacture at h
  cases hfo : findOwnedProduct s u productId with
  | none => simp only [hfo] at h; simp at h
  | some p =>
    simp only [hfo] at h
    split at h
    · rename_i hcond
      unfold insertMovement at h
      split at h
      · simp at h
      · rename_i s2 hmv
        split at hmv
        · cases hmv
          cases h
          exact ⟨p, rfl, hcond.1, hcond.2, hcond.1.1, rfl, rfl⟩
        · simp at hmv
    · simp at h

/-! ## C4 -/

/-- C4: every successful record_manufacture call creates exactly one new
batch whose quantity_available equals quantity_produced, and appends
exactly one manufacture movement whose source and destination are both the
owning product's manufacturer and whose quantity is quantity_produced. -/
theorem C4_manufacture_effect (s : DBState) (u productId : Nat) (bn : String)
    (md ed qp now : Int) (s' : DBState) (bidOut : Nat)
    (hqp : 0 < qp) (hdates : md < ed)
    (h : record_manufacture s u productId bn md ed qp now = .ok (s', bidOut)) :
    ∃ p b mv, findOwnedProduct s u productId = some p ∧
      s'.product_batches = s.product_batches ++ [b] ∧
      b.quantity_available = qp ∧ b.quantity_produced = qp ∧
      s'.product_movements = s.product_movements ++ [mv] ∧
      mv.movement_type = .manufacture ∧
      mv.from_entity_type = .manufacturer ∧ mv.from_entity_id = p.manufacturer_id ∧
      mv.to_entity_type = .manufacturer ∧ mv.to_entity_id = p.manufacturer_id ∧
      mv.quantity = qp ∧ mv.batch_id = b.id := by
  obtain ⟨p, hp, hok, hun, hqp', hbid, hres⟩ := manufacture_ok_inversion h
  subst hres
  exact ⟨p, newBatchRow s productId bn md ed qp, _, hp, rfl, rfl, rfl, rfl, rfl,
    rfl, rfl, rfl, rfl, rfl, rfl⟩

/-- Witness for C4: the concrete scenario call record_manufacture(product 1,
1000 units) creates the expected batch and manufacture movement. -/
theorem C4_manufacture_effect_witness :
    ∃ p b mv, findOwnedProduct baseState 10 1 = some p ∧
      stateMan1.product_batches = baseState.product_batches ++ [b] ∧
      b.quantity_available = 1000 ∧ b.quantity_produced = 1000 ∧
      stateMan1.product_movements = baseState.product_movements ++ [mv] ∧
      mv.movement_type = .manufacture ∧
      mv.from_entity_type = .manufacturer ∧ mv.from_entity_id = p.manufacturer_id ∧
      mv.to_entity_type = .manufacturer ∧ mv.to_entity_id = p.manufacturer_id ∧
      mv.quantity = 1000 ∧ mv.batch_id = b.id :=
  C4_manufacture_effect baseState 10 1 "B1" 0 365 1000 100 stateMan1 1
    (by decide) (by decide) (by decide)

/-! ## C6 -/

lemma decBatch_exists_id {bid : Nat} {q : Int} {l l' : List Batch}
    (h : decBatch bid q l = some l') {b : Batch} (hb : b ∈ l) (hid : b.id = bid) :
    ∃ b2 ∈ l', b2.id = bid := by
  have hids := decBatch_map_id h
  have hmem : bid ∈ l.map (·.id) := List.mem_map.mpr ⟨b, hb, hid⟩
  rw [← hids] at hmem
  obtain ⟨b2, hb2, hb2id⟩ := List.mem_map.mp hmem
  exact ⟨b2, hb2, hb2id⟩

/-- C6 counterexample: the claim says shipping from an expired batch fails
with no state change, but the handler of POST /api/inventory/add never
reads expiry_date: shipping 5 units at time 1000 from a batch that expired
at time 10 succeeds and does change the state. -/
theorem C6_expiry_counterexample :
    batchExpired.expiry_date < 1000 ∧
      (ship_to_retailer stateExpired 20 1 1 5 5 1000).isOk = true ∧
      applyOp stateExpired (.opShip 20 1 1 5 5 1000) ≠ stateExpired := by decide

/-- C6 amended: ship_to_retailer performs no expiry check at all.  Whenever
the retailer resolves, the batch matches, the quantity is within
availability and positive, and the inventory upsert, the batch decrement
and the movement insert pass the database checks, the call succeeds even
though the batch's expiry_date has already passed. -/
theorem C6_no_expiry_check (s : DBState) (u pid bid : Nat) (q price now : Int)
    (r : Retailer) (hr : s.retailers.find? (fun x => x.wp_user_id == u) = some r)
    (b : Batch)
    (hb : s.product_batches.find? (fun x => x.id == bid && x.product_id == pid) = some b)
    (hexpired : b.expiry_date < now)
    (hq : ¬ b.quantity_available < q) (hqpos : 0 < q)
    (inv' : List InventoryPosition)
    (hup : upsertInventory s.retailer_inventory r.id pid bid q price = some inv')
    (bs' : List Batch) (hdec : decBatch bid q s.product_batches = some bs')
    (p : Product) (hp : s.products.find? (fun x => x.id == pid) = some p) :
    (ship_to_retailer s u pid bid q price now).isOk = true := by
  have hbmem : b ∈ s.product_batches := List.mem_of_find?_eq_some hb
  have hbid : b.id = bid := by
    have hfind := List.find?_some hb
    simp only [Bool.and_eq_true, beq_iff_eq] at hfind
    exact hfind.1
  have hpid : p.id = pid := by
    have hfind := List.find?_some hp
    simpa using hfind
  have hpm : p ∈ s.products := List.mem_of_find?_eq_some hp
  unfold ship_to_retailer
  simp only [hr, hb]
  rw [if_neg hq]
  simp only [hup, hdec, hp]
  unfold insertMovement
  rw [if_pos ⟨hqpos, ⟨p, hpm, hpid⟩, decBatch_exists_id hdec hbmem hbid⟩]
  rfl

/-- Witness for C6's amended claim: the concrete expired-batch call from the
counterexample goes through the amended theorem's hypotheses. -/
theorem C6_no_expiry_check_witness :
    (ship_to_retailer stateExpired 20 1 1 5 5 1000).isOk = true :=
  C6_no_expiry_check stateExpired 20 1 1 5 5 1000 rShop (by decide)
    batchExpired (by decide) (by decide) (by decide) (by decide)
    [⟨1, 1, 1, 5, 0, 5, none⟩] (by decide)
    [⟨1, 1, "B1", 0, 10, 1000, 795⟩] (by decide)
    pOne (by decide)

lemma purchaseItemStep_ok_inversion {s s' : DBState} {rid : Nat} {wp : Option Nat}
    {now : Int} {pid : Nat} {item : LineItem}
    (h : purchaseItemStep s rid wp now pid item = .ok s') :
    ∃ inv',
      0 < item.quantity ∧
      (∃ p ∈ s.products, p.id = item.product_id) ∧
      (∃ b ∈ s.product_batches, b.id = item.batch_id) ∧
      decStock rid item.product_id item.batch_id item.quantity now
        s.retailer_inventory = some inv' ∧
      s' = purchaseStepResult s rid wp now pid item inv' := by
  unfold purchaseItemStep at h
  split at h
  · rename_i hcond
    dsimp only at h
    cases hds : decStock rid item.product_id item.batch_id item.quantity now
        s.retailer_inventory with
    | none => simp only [hds] at h; simp at h
    | some inv' =>
      simp only [hds] at h
      unfold insertMovement at h
      split at h
      all_goals
        first
          | (simp at h; done)
          | (cases h
             exact ⟨inv', hcond.1, hcond.2.1, hcond.2.2, rfl, rfl⟩)
  · simp at h

lemma sell_ok_inversion {s s' : DBState} {rid : Nat} {items : List LineItem}
    {wp : Option Nat} {now : Int} {pnum : Nat}
    (h : sell_to_consumer s rid items wp now = .ok (s', pnum)) :
    (∃ r ∈ s.retailers, r.id = rid) ∧ pnum = s.next_purchase_id ∧
      processItems rid wp now s.next_purchase_id
        (purchaseInit s rid items wp now) items = .ok s' := by
  unfold sell_to_consumer at h
  split at h
  · rename_i hcond
    split at h
    all_goals
      first
        | (simp at h; done)
        | (rename_i s2 heq
           cases h
           exact ⟨hcond, rfl, heq⟩)
  · simp at h

lemma processItems_frame {rid : Nat} {wp : Option Nat} {now : Int} {pid : Nat} :
    ∀ {items : List LineItem} {s s' : DBState},
      processItems rid wp now pid s items = .ok s' →
      s'.manufacturers = s.manufacturers ∧ s'.retailers = s.retailers ∧
      s'.products = s.products ∧ s'.product_batches = s.product_batches ∧
      s'.next_batch_id = s.next_batch_id ∧
      s'.consumer_purchases = s.consumer_purchases ∧
      s'.next_purchase_id = s.next_purchase_id := by
  intro items
  induction items with
  | nil =>
    intro s s' h
    simp only [processItems, Except.ok.injEq] at h
    subst h
    exact ⟨rfl, rfl, rfl, rfl, rfl, rfl, rfl⟩
  | cons item rest ih =>
    intro s s' h
    simp only [processItems] at h
    cases hstep : purchaseItemStep s rid wp now pid item with
    | error e => simp only [hstep] at h; simp at h
    | ok s1 =>
      simp only [hstep] at h
      obtain ⟨inv', _, _, _, _, hres⟩ := purchaseItemStep_ok_inversion hstep
      obtain ⟨h1, h2, h3, h4, h5, h6, h7⟩ := ih h
      subst hres
      exact ⟨h1, h2, h3, h4, h5, h6, h7⟩

/-! ## Inventory-shrinking lemmas for the purchase loop -/

lemma shrunkRow_refl (r : InventoryPosition) : shrunkRow r r :=
  ⟨rfl, rfl, rfl, le_refl _⟩

lemma shrunkRow_trans {a b c : InventoryPosition} (h1 : shrunkRow a b)
    (h2 : shrunkRow b c) : shrunkRow a c :=
  ⟨h1.1.trans h2.1, h1.2.1.trans h2.2.1, h1.2.2.1.trans h2.2.2.1,
   h1.2.2.2.trans h2.2.2.2⟩

lemma forall₂_shrunk_refl : ∀ l : List InventoryPosition, List.Forall₂ shrunkRow l l
  | [] => List.Forall₂.nil
  | r :: rest => List.Forall₂.cons (shrunkRow_refl r) (forall₂_shrunk_refl rest)

lemma forall₂_shrunk_trans :
    ∀ {l1 l2 l3 : List InventoryPosition}, List.Forall₂ shrunkRow l1 l2 →
      List.Forall₂ shrunkRow l2 l3 → List.Forall₂ shrunkRow l1 l3 := by
  intro l1 l2 l3 h12
  induction h12 generalizing l3 with
  | nil =>
    intro h23
    cases h23
    exact List.Forall₂.nil
  | cons hab htail ih =>
    intro h23
    cases h23 with
    | cons hbc htail23 => exact List.Forall₂.cons (shrunkRow_trans hab hbc) (ih htail23)

lemma decStock_shrunk {rid pid bid : Nat} {q now : Int} (hq : 0 ≤ q) :
    ∀ {l l' : List InventoryPosition}, decStock rid pid bid q now l = some l' →
      List.Forall₂ shrunkRow l' l := by
  intro l
  induction l with
  | nil =>
    intro l' h
    simp only [decStock, Option.some.injEq] at h
    subst h
    exact List.Forall₂.nil
  | cons r rest ih =>
    intro l' h
    simp only [decStock] at h
    by_cases hk : keyMatch rid pid bid r
    · rw [if_pos hk] at h
      by_cases hok : invRowOk { r with quantity_in_stock := r.quantity_in_stock - q, last_sold := some now }
      · rw [if_pos hok] at h
        cases hrec : decStock rid pid bid q now rest with
        | none => rw [hrec] at h; simp at h
        | some rest' =>
          rw [hrec] at h
          simp only [Option.map_some', Option.some.injEq] at h
          subst h
          exact List.Forall₂.cons ⟨rfl, rfl, rfl, sub_le_self _ hq⟩ (ih hrec)
      · rw [if_neg hok] at h; simp at h
    · rw [if_neg hk] at h
      cases hrec : decStock rid pid bid q now rest with
      | none => rw [hrec] at h; simp at h
      | some rest' =>
        rw [hrec] at h
        simp only [Option.map_some', Option.some.injEq] at h
        subst h
        exact List.Forall₂.cons (shrunkRow_refl r) (ih hrec)

lemma decStock_first_le {rid pid bid : Nat} {q now : Int} :
    ∀ {l l' : List InventoryPosition}, decStock rid pid bid q now l = some l' →
      ∀ {r : InventoryPosition}, findInvRow l rid pid bid = some r →
        q ≤ r.quantity_in_stock := by
  intro l
  induction l with
  | nil =>
    intro l' _ r hf
    simp [findInvRow] at hf
  | cons a rest ih =>
    intro l' h r hf
    simp only [decStock] at h
    unfold findInvRow at hf
    by_cases hk : keyMatch rid pid bid a
    · rw [if_pos hk] at h
      rw [List.find?_cons_of_pos _ hk] at hf
      cases hf
      by_cases hok : invRowOk { a with quantity_in_stock := a.quantity_in_stock - q, last_sold := some now }
      · have hge : (0:Int) ≤ a.quantity_in_stock - q := hok.1
        omega
      · rw [if_neg hok] at h; simp at h
    · rw [if_neg hk] at h
      rw [List.find?_cons_of_neg _ hk] at hf
      cases hrec : decStock rid pid bid q now rest with
      | none => rw [hrec] at h; simp at h
      | some rest' => exact ih hrec hf

lemma findInvRow_forall₂ {rid pid bid : Nat} :
    ∀ {l' l : List InventoryPosition}, List.Forall₂ shrunkRow l' l →
      ∀ {r : InventoryPosition}, findInvRow l rid pid bid = some r →
        ∃ r', findInvRow l' rid pid bid = some r' ∧
          r'.quantity_in_stock ≤ r.quantity_in_stock := by
  intro l' l h
  induction h with
  | nil =>
    intro r hf
    simp [findInvRow] at hf
  | @cons a b l₁ l₂ hab htail ih =>
    intro r hf
    have hkey : keyMatch rid pid bid a = keyMatch rid pid bid b := by
      unfold keyMatch
      rw [hab.1, hab.2.1, hab.2.2.1]
    unfold findInvRow at hf ⊢
    by_cases hk : keyMatch rid pid bid b
    · rw [List.find?_cons_of_pos _ hk] at hf
      cases hf
      refine ⟨a, ?_, hab.2.2.2⟩
      rw [List.find?_cons_of_pos _ (by rw [hkey]; exact hk)]
    · rw [List.find?_cons_of_neg _ hk] at hf
      obtain ⟨r', hr', hle⟩ := ih hf
      refine ⟨r', ?_, hle⟩
      rw [List.find?_cons_of_neg _ (by rw [hkey]; simpa using hk)]
      exact hr'

/-! ## Aggregate lemmas about the purchase loop -/

lemma processItems_movements {rid : Nat} {wp : Option Nat} {now : Int} {pid : Nat} :
    ∀ {items : List LineItem} {s s' : DBState},
      processItems rid wp now pid s items = .ok s' →
      ∃ tail, s'.product_movements = s.product_movements ++ tail ∧
        ∀ m ∈ tail, m.movement_type = .sale_to_consumer ∧
          ∃ b ∈ s.product_batches, b.id = m.batch_id := by
  intro items
  induction items with
  | nil =>
    intro s s' h
    simp only [processItems, Except.ok.injEq] at h
    subst h
    exact ⟨[], by simp, by simp⟩
  | cons item rest ih =>
    intro s s' h
    simp only [processItems] at h
    cases hstep : purchaseItemStep s rid wp now pid item with
    | error e => simp only [hstep] at h; simp at h
    | ok s1 =>
      simp only [hstep] at h
      obtain ⟨inv', hqpos, hfkp, hfkb, hds, hres⟩ := purchaseItemStep_ok_inversion hstep
      obtain ⟨tail, htail, hmem⟩ := ih h
      subst hres
      refine ⟨saleMovement s rid wp now item :: tail, ?_, ?_⟩
      · rw [htail]
        simp [purchaseStepResult]
      · intro m hm
        rcases List.mem_cons.mp hm with hm | hm
        · subst hm
          exact ⟨rfl, hfkb⟩
        · exact hmem m hm

lemma processItems_shrunk {rid : Nat} {wp : Option Nat} {now : Int} {pid : Nat} :
    ∀ {items : List LineItem} {s s' : DBState},
      processItems rid wp now pid s items = .ok s' →
      List.Forall₂ shrunkRow s'.retailer_inventory s.retailer_inventory := by
  intro items
  induction items with
  | nil =>
    intro s s' h
    simp only [processItems, Except.ok.injEq] at h
    subst h
    exact forall₂_shrunk_refl _
  | cons item rest ih =>
    intro s s' h
    simp only [processItems] at h
    cases hstep : purchaseItemStep s rid wp now pid item with
    | error e => simp only [hstep] at h; simp at h
    | ok s1 =>
      simp only [hstep] at h
      obtain ⟨inv', hqpos, hfkp, hfkb, hds, hres⟩ := purchaseItemStep_ok_inversion hstep
      have h1 := ih h
      subst hres
      exact forall₂_shrunk_trans h1 (decStock_shrunk (le_of_lt hqpos) hds)

lemma processItems_ok_fk {rid : Nat} {wp : Option Nat} {now : Int} {pid : Nat} :
    ∀ {items : List LineItem} {s s' : DBState},
      processItems rid wp now pid s items = .ok s' →
      ∀ item ∈ items, (∃ p ∈ s.products, p.id = item.product_id) ∧
        (∃ b ∈ s.product_batches, b.id = item.batch_id) := by
  intro items
  induction items with
  | nil =>
    intro s s' _ item hitem
    simp at hitem
  | cons item0 rest ih =>
    intro s s' h item hitem
    simp only [processItems] at h
    cases hstep : purchaseItemStep s rid wp now pid item0 with
    | error e => simp only [hstep] at h; simp at h
    | ok s1 =>
      simp only [hstep] at h
      obtain ⟨inv', hq, hfp, hfb, hds, hres⟩ := purchaseItemStep_ok_inversion hstep
      rcases List.mem_cons.mp hitem with hitem | hitem
      · subst hitem
        exact ⟨hfp, hfb⟩
      · have hrec := ih h item hitem
        subst hres
        exact hrec

lemma processItems_precond {rid : Nat} {wp : Option Nat} {now : Int} {pid : Nat} :
    ∀ {items : List LineItem} {s s' : DBState},
      processItems rid wp now pid s items = .ok s' →
      ∀ item ∈ items, 0 < item.quantity ∧
        ∀ r, findInvRow s.retailer_inventory rid item.product_id item.batch_id = some r →
          item.quantity ≤ r.quantity_in_stock := by
  intro items
  induction items with
  | nil =>
    intro s s' _ item hitem
    simp at hitem
  | cons item0 rest ih =>
    intro s s' h item hitem
    simp only [processItems] at h
    cases hstep : purchaseItemStep s rid wp now pid item0 with
    | error e => simp only [hstep] at h; simp at h
    | ok s1 =>
      simp only [hstep] at h
      obtain ⟨inv', hqpos, hfkp, hfkb, hds, hres⟩ := purchaseItemStep_ok_inversion hstep
      rcases List.mem_cons.mp hitem with hitem | hitem
      · subst hitem
        exact ⟨hqpos, fun r hf => decStock_first_le hds hf⟩
      · have hrec := ih h item hitem
        refine ⟨hrec.1, fun r hf => ?_⟩
        have hshr : List.Forall₂ shrunkRow s1.retailer_inventory s.retailer_inventory := by
          subst hres
          exact decStock_shrunk (le_of_lt hqpos) hds
        obtain ⟨r', hr', hle⟩ := findInvRow_forall₂ hshr hf
        exact le_trans (hrec.2 r' hr') hle

/-! ## C9 -/

lemma sell_ok_batches {s s' : DBState} {rid : Nat} {items : List LineItem}
    {wp : Option Nat} {now : Int} {pnum : Nat}
    (h : sell_to_consumer s rid items wp now = .ok (s', pnum)) :
    s'.product_batches = s.product_batches := by
  obtain ⟨_, _, hpi⟩ := sell_ok_inversion h
  exact (processItems_frame hpi).2.2.2.1

/-- C9: no operation other than batch creation touches any batch column
except quantity_available: after ship_to_retailer, sell_to_consumer, or a
trace query, the list of batches with quantity_available masked out is
unchanged, so quantity_produced (and every other write-once column) is
written exactly once, at batch creation. -/
theorem C9_quantity_produced_write_once (s : DBState) (op : Op)
    (h : op.createsBatch = false) :
    ((applyOp s op).product_batches).map clearQA = s.product_batches.map clearQA := by
  cases op with
  | opManufacture u pid bn md ed qp now => simp [Op.createsBatch] at h
  | opShip u pid bid q p now =>
    simp only [applyOp]
    cases hs : ship_to_retailer s u pid bid q p now with
    | error e => rfl
    | ok s' =>
      obtain ⟨r, b, inv', bs', pr, _, _, _, _, hdec, _, _, hres⟩ := ship_ok_inversion hs
      subst hres
      exact decBatch_map_clearQA hdec
  | opPurchase rid items wp now =>
    simp only [applyOp]
    cases hs : sell_to_consumer s rid items wp now with
    | error e => rfl
    | ok out =>
      obtain ⟨s', pnum⟩ := out
      rw [sell_ok_batches hs]
  | opTrace bn => rfl

/-- Witness for C9: the scenario's ship operation leaves every batch column
except quantity_available unchanged. -/
theorem C9_quantity_produced_write_once_witness :
    ((applyOp stateB800 (.opShip 20 1 1 200 5 200)).product_batches).map clearQA =
      stateB800.product_batches.map clearQA :=
  C9_quantity_produced_write_once stateB800 (.opShip 20 1 1 200 5 200) (by decide)

/-! ## Replay lemmas and the reconciliation invariant (C5) -/

lemma replaySum_append (l1 l2 : List Movement) (bid : Nat) :
    replaySum (l1 ++ l2) bid = replaySum l1 bid + replaySum l2 bid := by
  unfold replaySum
  rw [List.filter_append, List.map_append, List.sum_append]

lemma replaySum_zero {l : List Movement} {bid : Nat}
    (h : ∀ m ∈ l, m.batch_id ≠ bid) : replaySum l bid = 0 := by
  unfold replaySum
  have hf : l.filter (fun m => m.batch_id == bid) = [] := by
    rw [List.filter_eq_nil_iff]
    intro m hm
    simpa using h m hm
  rw [hf]
  rfl

lemma replaySum_of_signed_zero {l : List Movement} {bid : Nat}
    (h : ∀ m ∈ l, signedQty m = 0) : replaySum l bid = 0 := by
  unfold replaySum
  apply List.sum_eq_zero
  intro x hx
  obtain ⟨m, hm, hxm⟩ := List.mem_map.mp hx
  rw [← hxm]
  exact h m (List.mem_filter.mp hm).1

lemma replaySum_singleton (m : Movement) (bid : Nat) :
    replaySum [m] bid = if m.batch_id == bid then signedQty m else 0 := by
  unfold replaySum
  by_cases h : m.batch_id == bid
  · simp [List.filter, h]
  · simp [List.filter, h]

lemma signedQty_sale {m : Movement} (h : m.movement_type = .sale_to_consumer) :
    signedQty m = 0 := by
  unfold signedQty
  rw [h]

lemma ledgerInv_manufacture {s s' : DBState} {u pid bidOut : Nat} {bn : String}
    {md ed qp now : Int} (hinv : LedgerInv s)
    (h : record_manufacture s u pid bn md ed qp now = .ok (s', bidOut)) :
    LedgerInv s' := by
  obtain ⟨⟨hbb, hmb⟩, hnd, hrec⟩ := hinv
  obtain ⟨p, hp, hok, hun, hqp, hbid, hres⟩ := manufacture_ok_inversion h
  subst hres
  refine ⟨⟨?_, ?_⟩, ?_, ?_⟩
  · intro b hb
    show b.id < s.next_batch_id + 1
    rcases List.mem_append.mp hb with hb | hb
    · exact Nat.lt_succ_of_lt (hbb b hb)
    · simp only [List.mem_singleton] at hb
      subst hb
      exact Nat.lt_succ_self _
  · intro m hm
    show m.batch_id < s.next_batch_id + 1
    rcases List.mem_append.mp hm with hm | hm
    · exact Nat.lt_succ_of_lt (hmb m hm)
    · simp only [List.mem_singleton] at hm
      subst hm
      exact Nat.lt_succ_self _
  · show ((s.product_batches ++ [newBatchRow s pid bn md ed qp]).map (·.id)).Nodup
    rw [List.map_append]
    rw [List.nodup_append]
    refine ⟨hnd, List.nodup_singleton _, ?_⟩
    intro x hx hx2
    simp only [List.map_singleton, List.mem_singleton] at hx2
    obtain ⟨b, hb, hbe⟩ := List.mem_map.mp hx
    simp only [newBatchRow] at hx2
    have := hbb b hb
    omega
  · intro b hb
    rcases List.mem_append.mp hb with hb | hb
    · show b.quantity_available = replaySum (s.product_movements ++ _) b.id
      rw [replaySum_append, replaySum_singleton]
      simp only [manufactureMovement]
      have hne : ¬ (s.next_batch_id == b.id) = true := by
        have := hbb b hb
        simp only [beq_iff_eq]
        omega
      rw [if_neg hne]
      rw [hrec b hb]
      ring
    · simp only [List.mem_singleton] at hb
      subst hb
      show qp = replaySum (s.product_movements ++ _) s.next_batch_id
      rw [replaySum_append, replaySum_singleton]
      rw [replaySum_zero (fun m hm => Nat.ne_of_lt (hmb m hm))]
      simp [manufactureMovement, signedQty]

lemma ledgerInv_ship {s s' : DBState} {u pid bid : Nat} {q price now : Int}
    (hinv : LedgerInv s) (h : ship_to_retailer s u pid bid q price now = .ok s') :
    LedgerInv s' := by
  obtain ⟨⟨hbb, hmb⟩, hnd, hrec⟩ := hinv
  obtain ⟨r, b, inv', bs', pr, hr, hb, hq, hup, hdec, hp, hqpos, hres⟩ := ship_ok_inversion h
  subst hres
  have hids := decBatch_map_id hdec
  have hbmem : b ∈ s.product_batches := List.mem_of_find?_eq_some hb
  have hbid : b.id = bid := by
    have hfind := List.find?_some hb
    simp only [Bool.and_eq_true, beq_iff_eq] at hfind
    exact hfind.1
  have hbidlt : bid < s.next_batch_id := hbid ▸ hbb b hbmem
  refine ⟨⟨?_, ?_⟩, ?_, ?_⟩
  · intro b2 hb2
    show b2.id < s.next_batch_id
    have hmem : b2.id ∈ bs'.map (·.id) := List.mem_map.mpr ⟨b2, hb2, rfl⟩
    rw [hids] at hmem
    obtain ⟨b3, hb3, hb3e⟩ := List.mem_map.mp hmem
    rw [← hb3e]
    exact hbb b3 hb3
  · intro m hm
    show m.batch_id < s.next_batch_id
    rcases List.mem_append.mp hm with hm | hm
    · exact hmb m hm
    · simp only [List.mem_singleton] at hm
      subst hm
      exact hbidlt
  · show (bs'.map (·.id)).Nodup
    rw [hids]
    exact hnd
  · intro b2 hb2
    obtain ⟨b3, hb3, hid3, heq3, hne3⟩ := decBatch_mem hdec b2 hb2
    show b2.quantity_available = replaySum (s.product_movements ++ _) b2.id
    rw [replaySum_append, replaySum_singleton]
    simp only [shipMovement, signedQty]
    by_cases hcase : b3.id = bid
    · have h1 : b2.quantity_available = b3.quantity_available - q := by
        rw [heq3 hcase]
      have h2 : (bid == b2.id) = true := by
        simp only [beq_iff_eq]
        omega
      rw [if_pos h2, h1, hid3, hrec b3 hb3]
      ring
    · have h2 : b2 = b3 := hne3 hcase
      subst h2
      have h3 : ¬ (bid == b2.id) = true := by
        simp only [beq_iff_eq]
        omega
      rw [if_neg h3, hrec b2 hb3]
      ring

lemma ledgerInv_purchase {s s' : DBState} {rid : Nat} {items : List LineItem}
    {wp : Option Nat} {now : Int} {pnum : Nat}
    (hinv : LedgerInv s) (h : sell_to_consumer s rid items wp now = .ok (s', pnum)) :
    LedgerInv s' := by
  obtain ⟨⟨hbb, hmb⟩, hnd, hrec⟩ := hinv
  obtain ⟨_, _, hpi⟩ := sell_ok_inversion h
  have hfr := processItems_frame hpi
  obtain ⟨tail, htail, htmem⟩ := processItems_movements hpi
  have hbatches : s'.product_batches = s.product_batches := hfr.2.2.2.1
  have hnext : s'.next_batch_id = s.next_batch_id := hfr.2.2.2.2.1
  have hmoves : s'.product_movements = s.product_movements ++ tail := htail
  refine ⟨⟨?_, ?_⟩, ?_, ?_⟩
  · intro b hb
    rw [hbatches] at hb
    rw [hnext]
    exact hbb b hb
  · intro m hm
    rw [hmoves] at hm
    rw [hnext]
    rcases List.mem_append.mp hm with hm | hm
    · exact hmb m hm
    · obtain ⟨_, b, hb, hbe⟩ := htmem m hm
      rw [← hbe]
      exact hbb b hb
  · rw [hbatches]
    exact hnd
  · intro b hb
    rw [hbatches] at hb
    rw [hmoves, replaySum_append]
    rw [replaySum_of_signed_zero (fun m hm => signedQty_sale (htmem m hm).1)]
    rw [hrec b hb]
    ring

lemma ledgerInv_applyOp {s : DBState} (op : Op) (hinv : LedgerInv s) :
    LedgerInv (applyOp s op) := by
  cases op with
  | opManufacture u pid bn md ed qp now =>
    simp only [applyOp]
    cases h : record_manufacture s u pid bn md ed qp now with
    | error e => exact hinv
    | ok out =>
      obtain ⟨s', bid⟩ := out
      exact ledgerInv_manufacture hinv h
  | opShip u pid bid q p now =>
    simp only [applyOp]
    cases h : ship_to_retailer s u pid bid q p now with
    | error e => exact hinv
    | ok s' => exact ledgerInv_ship hinv h
  | opPurchase rid items wp now =>
    simp only [applyOp]
    cases h : sell_to_consumer s rid items wp now with
    | error e => exact hinv
    | ok out =>
      obtain ⟨s', pnum⟩ := out
      exact ledgerInv_purchase hinv h
  | opTrace bn => exact hinv

lemma ledgerInv_run (s : DBState) (ops : List Op) (hinv : LedgerInv s) :
    LedgerInv (run s ops) := by
  induction ops generalizing s with
  | nil => exact hinv
  | cons op rest ih => exact ih (applyOp s op) (ledgerInv_applyOp op hinv)

/-- C5: the reconciliation law.  From any state satisfying the ledger
invariant, after any sequence of record_manufacture, ship_to_retailer,
sell_to_consumer and trace operations, every batch's quantity_available
equals the replay of its movement log in commit order, where manufacture
movements add their quantity, ship_to_retailer movements subtract theirs,
and sale_to_consumer movements (which move only retailer stock) contribute
nothing. -/
theorem C5_reconciliation (s0 : DBState) (hinv : LedgerInv s0) (ops : List Op) :
    ∀ b ∈ (run s0 ops).product_batches,
      b.quantity_available = replaySum (run s0 ops).product_movements b.id :=
  (ledgerInv_run s0 ops hinv).2.2

/-- Witness for C5: the empty-ledger base state satisfies the invariant and
the spec's three-step scenario reconciles. -/
theorem C5_reconciliation_witness :
    LedgerInv baseState ∧
      batchAfterScenario.quantity_available =
        replaySum (run baseState scenarioOps).product_movements batchAfterScenario.id :=
  ⟨by decide, C5_reconciliation baseState (by decide) scenarioOps batchAfterScenario (by decide)⟩

/-! ## Sorting lemmas for the trace query (C7) -/

lemma insertMov_perm (m : Movement) : ∀ l : List Movement, (insertMov m l).Perm (m :: l)
  | [] => List.Perm.refl _
  | x :: xs => by
    unfold insertMov
    by_cases h : x.created_at ≤ m.created_at
    · rw [if_pos h]
      exact List.Perm.trans (List.Perm.cons x (insertMov_perm m xs)) (List.Perm.swap m x xs)
    · rw [if_neg h]

lemma sortMovements_perm (l : List Movement) : (sortMovements l).Perm l := by
  have key : ∀ (l acc : List Movement),
      (List.foldl (fun acc m => insertMov m acc) acc l).Perm (l ++ acc) := by
    intro l
    induction l with
    | nil => intro acc; simp
    | cons m rest ih =>
      intro acc
      show (List.foldl (fun acc m => insertMov m acc) (insertMov m acc) rest).Perm
        ((m :: rest) ++ acc)
      refine List.Perm.trans (ih (insertMov m acc)) ?_
      refine List.Perm.trans (List.Perm.append_left rest (insertMov_perm m acc)) ?_
      show (rest ++ m :: acc).Perm (m :: (rest ++ acc))
      exact List.perm_middle
  have h := key l []
  simpa using h

/-! ## C8 -/

/-- C8 counterexample: the claim says a deleted party is rendered with a
generic Party-number label, but get_batch_history's CASE falls back to a
label only for consumers: a movement whose source manufacturer (id 99) was
deleted traces successfully yet carries a NULL (none) source label, not a
generic label. -/
theorem C8_deleted_party_counterexample :
    stateOrphan.manufacturers.find? (fun m => m.id == movOrphan.from_entity_id) = none ∧
      trace_batch stateOrphan "B1" = .ok (batchB800,
        [{ movement_date := 200, movement_type := .ship_to_retailer,
           from_entity := none, to_entity := some "Shop", quantity := 200 }]) := by
  decide

/-- C8 amended: a trace over a batch whose movements reference a deleted or
anonymized party still succeeds and keeps every record (graceful
degradation); consumer-type parties always render as the literal label
Consumer #id; but a deleted manufacturer or retailer renders as SQL NULL
(none) rather than a generic Party-number label. -/
theorem C8_degraded_party_labels (s : DBState) (bn : String) (b : Batch)
    (hsel : selectTraceBatch s bn = some b) :
    (∃ hist, trace_batch s bn = .ok (b, hist) ∧
      hist.length = (s.product_movements.filter (fun m => m.batch_id == b.id)).length) ∧
    (∀ eid, entityLabel s .consumer eid = some ("Consumer #" ++ toString eid)) ∧
    (∀ eid, s.manufacturers.find? (fun m => m.id == eid) = none →
      entityLabel s .manufacturer eid = none) ∧
    (∀ eid, s.retailers.find? (fun r => r.id == eid) = none →
      entityLabel s .retailer eid = none) := by
  refine ⟨⟨get_batch_history s b, ?_, ?_⟩, ?_, ?_, ?_⟩
  · unfold trace_batch
    rw [hsel]
  · unfold get_batch_history
    rw [List.length_map]
    exact (sortMovements_perm _).length_eq
  · intro eid
    rfl
  · intro eid h
    unfold entityLabel
    rw [h]
    rfl
  · intro eid h
    unfold entityLabel
    rw [h]
    rfl

/-- Witness for C8's amended claim: the orphaned-manufacturer state traces
with every record kept and the degraded labels. -/
theorem C8_degraded_party_labels_witness :
    (∃ hist, trace_batch stateOrphan "B1" = .ok (batchB800, hist) ∧
      hist.length = (stateOrphan.product_movements.filter
        (fun m => m.batch_id == batchB800.id)).length) ∧
    entityLabel stateOrphan .consumer 0 = some ("Consumer #" ++ toString 0) ∧
    entityLabel stateOrphan .manufacturer 99 = none :=
  have h := C8_degraded_party_labels stateOrphan "B1" batchB800 (by decide)
  ⟨h.1, h.2.1 0, h.2.2.1 99 (by decide)⟩

/-! ## C3 -/

/-- C3 counterexample: the claim says a line item whose (retailer, product,
batch) key has no Inventory Position makes the call fail, but the
handler's UPDATE simply matches zero rows: retailer 1 has no inventory at
all in stateB800, yet a purchase of 5 units of product 1 / batch 1 commits
and changes the state (purchase row, item row and movement are persisted
with no inventory decrement). -/
theorem C3_missing_position_counterexample :
    findInvRow stateB800.retailer_inventory 1 1 1 = none ∧
      (sell_to_consumer stateB800 1 [⟨1, 1, 5, 7⟩] none 400).isOk = true ∧
      applyOp stateB800 (.opPurchase 1 [⟨1, 1, 5, 7⟩] none 400) ≠ stateB800 := by
  decide

/-- C3 amended: when a purchase commits, every line item had positive
quantity (the purchase_items CHECK) and, whenever an Inventory Position
row for its exact (retailer, product, batch) key existed, its quantity was
within that row's pre-state stock (the inventory CHECK on the UPDATE); a
key with no Inventory Position row, however, does not make the call fail. -/
theorem C3_purchase_preconditions (s : DBState) (rid : Nat) (items : List LineItem)
    (wp : Option Nat) (now : Int) (s' : DBState) (pnum : Nat)
    (h : sell_to_consumer s rid items wp now = .ok (s', pnum)) :
    ∀ item ∈ items, 0 < item.quantity ∧
      ∀ r, findInvRow s.retailer_inventory rid item.product_id item.batch_id = some r →
        item.quantity ≤ r.quantity_in_stock := by
  obtain ⟨_, _, hpi⟩ := sell_ok_inversion h
  show ∀ item ∈ items, 0 < item.quantity ∧
    ∀ r, findInvRow (purchaseInit s rid items wp now).retailer_inventory
        rid item.product_id item.batch_id = some r →
      item.quantity ≤ r.quantity_in_stock
  exact processItems_precond hpi

/-- Witness for C3's amended claim: a committed 50-unit purchase against a
150-unit position satisfies the preconditions. -/
theorem C3_purchase_preconditions_witness :
    0 < item50.quantity ∧ item50.quantity ≤ invRow150.quantity_in_stock :=
  have h := C3_purchase_preconditions stateMixed 1 [item50] (some 30) 300
    statePurchased 1 (by decide) item50 (by decide)
  ⟨h.1, h.2 invRow150 (by decide)⟩

/-! ## C2 -/

/-- C2 counterexample: the claim says one failing line item aborts the
whole purchase, but a line item whose key has no Inventory Position (batch
2 is never stocked by retailer 1) fails its stated precondition without
aborting: the two-item purchase commits and changes the state. -/
theorem C2_mixed_purchase_counterexample :
    findInvRow stateMixed.retailer_inventory 1 1 2 = none ∧
      (sell_to_consumer stateMixed 1 [⟨1, 1, 50, 7⟩, ⟨1, 2, 5, 7⟩] none 400).isOk = true ∧
      applyOp stateMixed (.opPurchase 1 [⟨1, 1, 50, 7⟩, ⟨1, 2, 5, 7⟩] none 400)
        ≠ stateMixed := by
  decide

/-- C2 amended: the purchase is all-or-nothing for the preconditions the
database can see: if any line item has non-positive quantity, references a
product or batch that does not exist, or has an existing Inventory
Position row for its key holding less stock than the item requests, the
whole transaction aborts with an error and no state at all is persisted;
only a line item whose key has no Inventory Position row escapes the
check. -/
theorem C2_purchase_all_or_nothing (s : DBState) (rid : Nat) (items : List LineItem)
    (wp : Option Nat) (now : Int)
    (hbad : ∃ item ∈ items, item.quantity ≤ 0 ∨
      (¬∃ p ∈ s.products, p.id = item.product_id) ∨
      (¬∃ b ∈ s.product_batches, b.id = item.batch_id) ∨
      ∃ r, findInvRow s.retailer_inventory rid item.product_id item.batch_id = some r ∧
        r.quantity_in_stock < item.quantity) :
    (∃ e, sell_to_consumer s rid items wp now = .error e) ∧
      applyOp s (.opPurchase rid items wp now) = s := by
  cases hres : sell_to_consumer s rid items wp now with
  | error e =>
    refine ⟨⟨e, rfl⟩, ?_⟩
    simp only [applyOp, hres]
  | ok out =>
    obtain ⟨s', pnum⟩ := out
    exfalso
    obtain ⟨_, _, hpi⟩ := sell_ok_inversion hres
    have hpre := processItems_precond hpi
    obtain ⟨item, hitem, hviol⟩ := hbad
    obtain ⟨hqpos, hbound⟩ := hpre item hitem
    have hfk : (∃ p ∈ s.products, p.id = item.product_id) ∧
        (∃ b ∈ s.product_batches, b.id = item.batch_id) :=
      processItems_ok_fk hpi item hitem
    rcases hviol with hle | hnp | hnb | ⟨r, hr, hlt⟩
    · omega
    · exact hnp hfk.1
    · exact hnb hfk.2
    · have hle2 := hbound r hr
      omega

/-- Witness for C2's amended claim: requesting 200 from a 150-unit
position aborts with no state change. -/
theorem C2_purchase_all_or_nothing_witness :
    (∃ e, sell_to_consumer stateMixed 1 [⟨1, 1, 200, 7⟩] none 400 = .error e) ∧
      applyOp stateMixed (.opPurchase 1 [⟨1, 1, 200, 7⟩] none 400) = stateMixed :=
  C2_purchase_all_or_nothing stateMixed 1 [⟨1, 1, 200, 7⟩] none 400
    ⟨⟨1, 1, 200, 7⟩, by decide, Or.inr (Or.inr (Or.inr ⟨invRow150, by decide, by decide⟩))⟩

/-! ## Price non-interference (C10) -/

lemma keyMatch_strip (rid pid bid : Nat) {r₁ r₂ : InventoryPosition}
    (h : stripRowPrice r₁ = stripRowPrice r₂) :
    keyMatch rid pid bid r₁ = keyMatch rid pid bid r₂ := by
  unfold keyMatch
  have e1 := congrArg InventoryPosition.retailer_id h
  have e2 := congrArg InventoryPosition.product_id h
  have e3 := congrArg InventoryPosition.batch_id h
  have h1 : r₁.retailer_id = r₂.retailer_id := e1
  have h2 : r₁.product_id = r₂.product_id := e2
  have h3 : r₁.batch_id = r₂.batch_id := e3
  rw [h1, h2, h3]

lemma decStock_prices {rid pid bid : Nat} {q now : Int} :
    ∀ {l l' : List InventoryPosition}, decStock rid pid bid q now l = some l' →
      (∀ r ∈ l, 0 < r.price) → (∀ r ∈ l', 0 < r.price) := by
  intro l
  induction l with
  | nil =>
    intro l' h _
    simp only [decStock, Option.some.injEq] at h
    subst h
    intro r hr
    simp at hr
  | cons a rest ih =>
    intro l' h hp
    simp only [decStock] at h
    by_cases hk : keyMatch rid pid bid a
    · rw [if_pos hk] at h
      by_cases hok : invRowOk { a with quantity_in_stock := a.quantity_in_stock - q, last_sold := some now }
      · rw [if_pos hok] at h
        cases hrec : decStock rid pid bid q now rest with
        | none => rw [hrec] at h; simp at h
        | some rest' =>
          rw [hrec] at h
          simp only [Option.map_some', Option.some.injEq] at h
          subst h
          intro r hr
          rcases List.mem_cons.mp hr with hr | hr
          · subst hr
            exact hp a (List.mem_cons_self _ _)
          · exact ih hrec (fun x hx => hp x (List.mem_cons_of_mem _ hx)) r hr
      · rw [if_neg hok] at h; simp at h
    · rw [if_neg hk] at h
      cases hrec : decStock rid pid bid q now rest with
      | none => rw [hrec] at h; simp at h
      | some rest' =>
        rw [hrec] at h
        simp only [Option.map_some', Option.some.injEq] at h
        subst h
        intro r hr
        rcases List.mem_cons.mp hr with hr | hr
        · subst hr
          exact hp _ (List.mem_cons_self _ _)
        · exact ih hrec (fun x hx => hp x (List.mem_cons_of_mem _ hx)) r hr

lemma decStock_strip {rid pid bid : Nat} {q now : Int} :
    ∀ {l₁ l₂ : List InventoryPosition},
      l₁.map stripRowPrice = l₂.map stripRowPrice →
      (∀ r ∈ l₁, 0 < r.price) → (∀ r ∈ l₂, 0 < r.price) →
      Option.map (List.map stripRowPrice) (decStock rid pid bid q now l₁) =
        Option.map (List.map stripRowPrice) (decStock rid pid bid q now l₂) := by
  intro l₁
  induction l₁ with
  | nil =>
    intro l₂ h _ _
    cases l₂ with
    | nil => rfl
    | cons r₂ rest₂ => simp at h
  | cons r₁ rest₁ ih =>
    intro l₂ h hp₁ hp₂
    cases l₂ with
    | nil => simp at h
    | cons r₂ rest₂ =>
      simp only [List.map_cons, List.cons.injEq] at h
      obtain ⟨hr, hrest⟩ := h
      have hrec := ih hrest (fun x hx => hp₁ x (List.mem_cons_of_mem _ hx))
        (fun x hx => hp₂ x (List.mem_cons_of_mem _ hx))
      have es := congrArg InventoryPosition.quantity_in_stock hr
      have er := congrArg InventoryPosition.quantity_reserved hr
      have hstock : r₁.quantity_in_stock = r₂.quantity_in_stock := es
      have hresv : r₁.quantity_reserved = r₂.quantity_reserved := er
      have hps : 0 < r₁.price := hp₁ r₁ (List.mem_cons_self _ _)
      have hps2 : 0 < r₂.price := hp₂ r₂ (List.mem_cons_self _ _)
      simp only [decStock]
      rw [keyMatch_strip rid pid bid hr]
      by_cases hk : keyMatch rid pid bid r₂
      · rw [if_pos hk, if_pos hk]
        have hokIff : invRowOk { r₁ with quantity_in_stock := r₁.quantity_in_stock - q, last_sold := some now } ↔ invRowOk { r₂ with quantity_in_stock := r₂.quantity_in_stock - q, last_sold := some now } := by
          unfold invRowOk
          dsimp only
          constructor
          · rintro ⟨a, b, c, _⟩
            exact ⟨by omega, by omega, by omega, hps2⟩
          · rintro ⟨a, b, c, _⟩
            exact ⟨by omega, by omega, by omega, hps⟩
        have hfield : stripRowPrice { r₁ with quantity_in_stock := r₁.quantity_in_stock - q, last_sold := some now } = stripRowPrice { r₂ with quantity_in_stock := r₂.quantity_in_stock - q, last_sold := some now } := by
          have e1 := congrArg InventoryPosition.retailer_id hr
          have e2 := congrArg InventoryPosition.product_id hr
          have e3 := congrArg InventoryPosition.batch_id hr
          have h1 : r₁.retailer_id = r₂.retailer_id := e1
          have h2 : r₁.product_id = r₂.product_id := e2
          have h3 : r₁.batch_id = r₂.batch_id := e3
          unfold stripRowPrice
          rw [h1, h2, h3, hstock, hresv]
        by_cases hok : invRowOk { r₁ with quantity_in_stock := r₁.quantity_in_stock - q, last_sold := some now }
        · rw [if_pos hok, if_pos (hokIff.mp hok)]
          cases h1 : decStock rid pid bid q now rest₁ with
          | none =>
            cases h2 : decStock rid pid bid q now rest₂ with
            | none => rfl
            | some l => rw [h1, h2] at hrec; simp at hrec
          | some l1 =>
            cases h2 : decStock rid pid bid q now rest₂ with
            | none => rw [h1, h2] at hrec; simp at hrec
            | some l2 =>
              rw [h1, h2] at hrec
              simp only [Option.map_some', Option.some.injEq] at hrec
              simp only [Option.map_some', Option.some.injEq, List.map_cons]
              rw [hrec, hfield]
        · rw [if_neg hok, if_neg (fun hc => hok (hokIff.mpr hc))]
      · rw [if_neg hk, if_neg hk]
        cases h1 : decStock rid pid bid q now rest₁ with
        | none =>
          cases h2 : decStock rid pid bid q now rest₂ with
          | none => rfl
          | some l => rw [h1, h2] at hrec; simp at hrec
        | some l1 =>
          cases h2 : decStock rid pid bid q now rest₂ with
          | none => rw [h1, h2] at hrec; simp at hrec
          | some l2 =>
            rw [h1, h2] at hrec
            simp only [Option.map_some', Option.some.injEq] at hrec
            simp only [Option.map_some', Option.some.injEq, List.map_cons]
            rw [hrec, hr]

lemma stripPrices_proj {s₁ s₂ : DBState} (h : stripPrices s₁ = stripPrices s₂) :
    s₁.manufacturers = s₂.manufacturers ∧ s₁.retailers = s₂.retailers ∧
    s₁.products = s₂.products ∧ s₁.product_batches = s₂.product_batches ∧
    s₁.retailer_inventory.map stripRowPrice = s₂.retailer_inventory.map stripRowPrice ∧
    s₁.product_movements = s₂.product_movements ∧
    s₁.consumer_purchases = s₂.consumer_purchases ∧
    s₁.purchase_items = s₂.purchase_items ∧
    s₁.next_batch_id = s₂.next_batch_id ∧
    s₁.next_movement_id = s₂.next_movement_id ∧
    s₁.next_purchase_id = s₂.next_purchase_id := by
  have e1 := congrArg DBState.manufacturers h
  have e2 := congrArg DBState.retailers h
  have e3 := congrArg DBState.products h
  have e4 := congrArg DBState.product_batches h
  have e5 := congrArg DBState.retailer_inventory h
  have e6 := congrArg DBState.product_movements h
  have e7 := congrArg DBState.consumer_purchases h
  have e8 := congrArg DBState.purchase_items h
  have e9 := congrArg DBState.next_batch_id h
  have e10 := congrArg DBState.next_movement_id h
  have e11 := congrArg DBState.next_purchase_id h
  exact ⟨e1, e2, e3, e4, e5, e6, e7, e8, e9, e10, e11⟩

lemma purchaseItemStep_ok_of {s : DBState} {rid : Nat} {wp : Option Nat} {now : Int}
    {pid : Nat} {item : LineItem} {inv' : List InventoryPosition}
    (hc : 0 < item.quantity ∧ (∃ p ∈ s.products, p.id = item.product_id) ∧
      (∃ b ∈ s.product_batches, b.id = item.batch_id))
    (hds : decStock rid item.product_id item.batch_id item.quantity now
      s.retailer_inventory = some inv') :
    purchaseItemStep s rid wp now pid item =
      .ok (purchaseStepResult s rid wp now pid item inv') := by
  unfold purchaseItemStep
  rw [if_pos hc]
  dsimp only
  simp only [hds]
  unfold insertMovement
  split
  · rfl
  · rename_i hnc
    exact absurd ⟨hc.1, hc.2.1, hc.2.2⟩ hnc

lemma purchaseItemStep_error_inversion {s : DBState} {rid : Nat} {wp : Option Nat}
    {now : Int} {pid : Nat} {item : LineItem} {e : ApiError}
    (h : purchaseItemStep s rid wp now pid item = .error e) :
    e = .checkViolation ∧
      (¬(0 < item.quantity ∧ (∃ p ∈ s.products, p.id = item.product_id) ∧
          (∃ b ∈ s.product_batches, b.id = item.batch_id)) ∨
        ((0 < item.quantity ∧ (∃ p ∈ s.products, p.id = item.product_id) ∧
          (∃ b ∈ s.product_batches, b.id = item.batch_id)) ∧
          decStock rid item.product_id item.batch_id item.quantity now
            s.retailer_inventory = none)) := by
  unfold purchaseItemStep at h
  split at h
  · rename_i hc
    dsimp only at h
    cases hds : decStock rid item.product_id item.batch_id item.quantity now
        s.retailer_inventory with
    | none =>
      simp only [hds] at h
      cases h
      exact ⟨rfl, Or.inr ⟨hc, rfl⟩⟩
    | some inv' =>
      simp only [hds] at h
      unfold insertMovement at h
      split at h
      all_goals
        first
          | (simp at h; done)
          | (rename_i hnc
             exact absurd ⟨hc.1, hc.2.1, hc.2.2⟩ hnc)
  · rename_i hnc
    cases h
    exact ⟨rfl, Or.inl hnc⟩

lemma purchaseItemStep_error_of_not_cond {s : DBState} {rid : Nat} {wp : Option Nat}
    {now : Int} {pid : Nat} {item : LineItem}
    (hnc : ¬(0 < item.quantity ∧ (∃ p ∈ s.products, p.id = item.product_id) ∧
      (∃ b ∈ s.product_batches, b.id = item.batch_id))) :
    purchaseItemStep s rid wp now pid item = .error .checkViolation := by
  unfold purchaseItemStep
  rw [if_neg hnc]

lemma purchaseItemStep_error_of_none {s : DBState} {rid : Nat} {wp : Option Nat}
    {now : Int} {pid : Nat} {item : LineItem}
    (hc : 0 < item.quantity ∧ (∃ p ∈ s.products, p.id = item.product_id) ∧
      (∃ b ∈ s.product_batches, b.id = item.batch_id))
    (hds : decStock rid item.product_id item.batch_id item.quantity now
      s.retailer_inventory = none) :
    purchaseItemStep s rid wp now pid item = .error .checkViolation := by
  unfold purchaseItemStep
  rw [if_pos hc]
  dsimp only
  simp only [hds]

lemma purchaseItemStep_prices {s s' : DBState} {rid : Nat} {wp : Option Nat}
    {now : Int} {pid : Nat} {item : LineItem}
    (h : purchaseItemStep s rid wp now pid item = .ok s') (hp : PricesPositive s) :
    PricesPositive s' := by
  obtain ⟨inv', hc, _, _, hds, hres⟩ := purchaseItemStep_ok_inversion h
  subst hres
  intro r hr
  exact decStock_prices hds hp r hr

lemma purchaseItemStep_strip {s₁ s₂ : DBState} (h : stripPrices s₁ = stripPrices s₂)
    (hp₁ : PricesPositive s₁) (hp₂ : PricesPositive s₂)
    (rid : Nat) (wp : Option Nat) (now : Int) (pid : Nat) (item : LineItem) :
    Except.map stripPrices (purchaseItemStep s₁ rid wp now pid item) =
      Except.map stripPrices (purchaseItemStep s₂ rid wp now pid item) := by
  obtain ⟨hman, hret, hprod, hbat, hinv, hmov, hcp, hpit, hnb, hnm, hnp⟩ := stripPrices_proj h
  have hds := @decStock_strip rid item.product_id item.batch_id item.quantity now
    s₁.retailer_inventory s₂.retailer_inventory hinv hp₁ hp₂
  cases hres₁ : purchaseItemStep s₁ rid wp now pid item with
  | ok s₁' =>
    obtain ⟨inv₁, hc₁a, hc₁b, hc₁c, hds₁, hr₁⟩ := purchaseItemStep_ok_inversion hres₁
    rw [hds₁] at hds
    cases hds₂ : decStock rid item.product_id item.batch_id item.quantity now
        s₂.retailer_inventory with
    | none => rw [hds₂] at hds; simp at hds
    | some inv₂ =>
      rw [hds₂] at hds
      simp only [Option.map_some', Option.some.injEq] at hds
      have hc₂ : 0 < item.quantity ∧ (∃ p ∈ s₂.products, p.id = item.product_id) ∧
          (∃ b ∈ s₂.product_batches, b.id = item.batch_id) :=
        ⟨hc₁a, hprod ▸ hc₁b, hbat ▸ hc₁c⟩
      rw [purchaseItemStep_ok_of hc₂ hds₂, hr₁]
      simp only [Except.map]
      have hres : stripPrices (purchaseStepResult s₁ rid wp now pid item inv₁) =
          stripPrices (purchaseStepResult s₂ rid wp now pid item inv₂) := by
        unfold stripPrices purchaseStepResult saleMovement purchaseItemRow
        dsimp only
        rw [hman, hret, hprod, hbat, hmov, hcp, hpit, hnb, hnm, hnp, hds]
      rw [hres]
  | error e =>
    obtain ⟨he, hcase⟩ := purchaseItemStep_error_inversion hres₁
    subst he
    rcases hcase with hnc | ⟨hc₁, hdsn⟩
    · have hnc₂ : ¬(0 < item.quantity ∧ (∃ p ∈ s₂.products, p.id = item.product_id) ∧
          (∃ b ∈ s₂.product_batches, b.id = item.batch_id)) := by
        rw [hprod, hbat] at hnc
        exact hnc
      rw [purchaseItemStep_error_of_not_cond hnc₂]
    · have hc₂ : 0 < item.quantity ∧ (∃ p ∈ s₂.products, p.id = item.product_id) ∧
          (∃ b ∈ s₂.product_batches, b.id = item.batch_id) :=
        ⟨hc₁.1, hprod ▸ hc₁.2.1, hbat ▸ hc₁.2.2⟩
      rw [hdsn] at hds
      have hdsn₂ : decStock rid item.product_id item.batch_id item.quantity now
          s₂.retailer_inventory = none := by
        cases hq : decStock rid item.product_id item.batch_id item.quantity now
            s₂.retailer_inventory with
        | none => rfl
        | some l => rw [hq] at hds; simp at hds
      rw [purchaseItemStep_error_of_none hc₂ hdsn₂]

lemma processItems_strip {rid : Nat} {wp : Option Nat} {now : Int} {pid : Nat} :
    ∀ {items : List LineItem} {s₁ s₂ : DBState},
      stripPrices s₁ = stripPrices s₂ → PricesPositive s₁ → PricesPositive s₂ →
      Except.map stripPrices (processItems rid wp now pid s₁ items) =
        Except.map stripPrices (processItems rid wp now pid s₂ items) := by
  intro items
  induction items with
  | nil =>
    intro s₁ s₂ h _ _
    simp only [processItems, Except.map]
    rw [h]
  | cons item rest ih =>
    intro s₁ s₂ h hp₁ hp₂
    have hstep := purchaseItemStep_strip h hp₁ hp₂ rid wp now pid item
    simp only [processItems]
    cases h₁ : purchaseItemStep s₁ rid wp now pid item with
    | error e =>
      cases h₂ : purchaseItemStep s₂ rid wp now pid item with
      | error e₂ =>
        rw [h₁, h₂] at hstep
        simp only [Except.map, Except.error.injEq] at hstep
        subst hstep
        rfl
      | ok s₂' =>
        rw [h₁, h₂] at hstep
        simp [Except.map] at hstep
    | ok s₁' =>
      cases h₂ : purchaseItemStep s₂ rid wp now pid item with
      | error e₂ =>
        rw [h₁, h₂] at hstep
        simp [Except.map] at hstep
      | ok s₂' =>
        rw [h₁, h₂] at hstep
        simp only [Except.map, Except.ok.injEq] at hstep
        exact ih hstep (purchaseItemStep_prices h₁ hp₁) (purchaseItemStep_prices h₂ hp₂)

lemma sell_ok_of {s s' : DBState} {rid : Nat} {items : List LineItem}
    {wp : Option Nat} {now : Int}
    (hc : ∃ r ∈ s.retailers, r.id = rid)
    (hpi : processItems rid wp now s.next_purchase_id
      (purchaseInit s rid items wp now) items = .ok s') :
    sell_to_consumer s rid items wp now = .ok (s', s.next_purchase_id) := by
  unfold sell_to_consumer
  rw [if_pos hc, hpi]

lemma sell_error_of {s : DBState} {rid : Nat} {items : List LineItem}
    {wp : Option Nat} {now : Int} {e : ApiError}
    (hc : ∃ r ∈ s.retailers, r.id = rid)
    (hpe : processItems rid wp now s.next_purchase_id
      (purchaseInit s rid items wp now) items = .error e) :
    sell_to_consumer s rid items wp now = .error e := by
  unfold sell_to_consumer
  rw [if_pos hc, hpe]

lemma sell_error_inversion {s : DBState} {rid : Nat} {items : List LineItem}
    {wp : Option Nat} {now : Int} {e : ApiError}
    (h : sell_to_consumer s rid items wp now = .error e) :
    (¬(∃ r ∈ s.retailers, r.id = rid) ∧ e = .checkViolation) ∨
      ((∃ r ∈ s.retailers, r.id = rid) ∧
        processItems rid wp now s.next_purchase_id
          (purchaseInit s rid items wp now) items = .error e) := by
  unfold sell_to_consumer at h
  split at h
  · rename_i hc
    split at h
    all_goals
      first
        | (simp at h; done)
        | (rename_i e2 heq
           cases h
           exact Or.inr ⟨hc, heq⟩)
  · rename_i hnc
    cases h
    exact Or.inl ⟨hnc, rfl⟩

/-- C10: price non-interference of the purchase handler.  The purchase's
total_amount, every purchase_items row, and every sale_to_consumer
movement are computed solely from the caller-supplied line items: running
the same purchase against two states that differ only in stored inventory
prices (both satisfying the price CHECK) yields identical results up to
those stored prices — the same success or error, the same purchase id, and
identical purchase, item and movement rows. -/
theorem C10_price_noninterference (s₁ s₂ : DBState) (rid : Nat) (items : List LineItem)
    (wp : Option Nat) (now : Int)
    (h : stripPrices s₁ = stripPrices s₂)
    (hp₁ : PricesPositive s₁) (hp₂ : PricesPositive s₂) :
    Except.map (fun out => (stripPrices out.1, out.2)) (sell_to_consumer s₁ rid items wp now) =
      Except.map (fun out => (stripPrices out.1, out.2)) (sell_to_consumer s₂ rid items wp now) := by
  obtain ⟨hman, hret, hprod, hbat, hinv, hmov, hcp, hpit, hnb, hnm, hnp⟩ := stripPrices_proj h
  have hinit : stripPrices (purchaseInit s₁ rid items wp now) =
      stripPrices (purchaseInit s₂ rid items wp now) := by
    unfold stripPrices purchaseInit purchaseRow
    dsimp only
    rw [hman, hret, hprod, hbat, hmov, hcp, hpit, hnb, hnm, hnp, hinv]
  have hppos₁ : PricesPositive (purchaseInit s₁ rid items wp now) := hp₁
  have hppos₂ : PricesPositive (purchaseInit s₂ rid items wp now) := hp₂
  have hrel := @processItems_strip rid wp now s₁.next_purchase_id items
    (purchaseInit s₁ rid items wp now) (purchaseInit s₂ rid items wp now)
    hinit hppos₁ hppos₂
  cases hr₁ : sell_to_consumer s₁ rid items wp now with
  | ok out₁ =>
    obtain ⟨s₁', p₁⟩ := out₁
    obtain ⟨hc₁, hpid₁, hpi₁⟩ := sell_ok_inversion hr₁
    have hc₂ : ∃ r ∈ s₂.retailers, r.id = rid := hret ▸ hc₁
    rw [hpi₁] at hrel
    rw [hnp] at hrel
    cases hpi₂ : processItems rid wp now s₂.next_purchase_id
        (purchaseInit s₂ rid items wp now) items with
    | error e =>
      rw [hpi₂] at hrel
      simp [Except.map] at hrel
    | ok s₂' =>
      rw [hpi₂] at hrel
      simp only [Except.map, Except.ok.injEq] at hrel
      rw [sell_ok_of hc₂ hpi₂]
      simp only [Except.map, Except.ok.injEq, Prod.mk.injEq]
      exact ⟨hrel, hpid₁.trans hnp⟩
  | error e =>
    rcases sell_error_inversion hr₁ with ⟨hnc, he⟩ | ⟨hc₁, hpe⟩
    · subst he
      have hnc₂ : ¬(∃ r ∈ s₂.retailers, r.id = rid) := by
        rw [hret] at hnc
        exact hnc
      have hr₂ : sell_to_consumer s₂ rid items wp now = .error .checkViolation := by
        unfold sell_to_consumer
        rw [if_neg hnc₂]
      rw [hr₂]
    · have hc₂ : ∃ r ∈ s₂.retailers, r.id = rid := hret ▸ hc₁
      rw [hpe] at hrel
      rw [hnp] at hrel
      cases hpi₂ : processItems rid wp now s₂.next_purchase_id
          (purchaseInit s₂ rid items wp now) items with
      | ok s₂' =>
        rw [hpi₂] at hrel
        simp [Except.map] at hrel
      | error e₂ =>
        rw [hpi₂] at hrel
        simp only [Except.map, Except.error.injEq] at hrel
        subst hrel
        rw [sell_error_of hc₂ hpi₂]

/-- Witness for C10: the same purchase against stateMixed and against
stateMixedPricey (identical except the stored price 5 vs 9) produces
identical stripped results. -/
theorem C10_price_noninterference_witness :
    Except.map (fun out => (stripPrices out.1, out.2))
        (sell_to_consumer stateMixed 1 [⟨1, 1, 50, 7⟩] (some 30) 300) =
      Except.map (fun out => (stripPrices out.1, out.2))
        (sell_to_consumer stateMixedPricey 1 [⟨1, 1, 50, 7⟩] (some 30) 300) :=
  C10_price_noninterference stateMixed stateMixedPricey 1 [⟨1, 1, 50, 7⟩] (some 30) 300
    (by decide) (by decide) (by decide)
